import Mathlib

/-!
# findme: credential and token lifecycle

A shallow embedding of the authentication core of the backend:

* `internal/domain/models/user.go`  (records),
* `internal/repository/postgres/user_repository.go`  (the SQL statements, read as
  functions on the contents of the `users` table),
* `pkg/jwt/jwt.go`  (token issuing and validation),
* `internal/service/auth/auth_service.go`  (the service operations),
* `internal/api/middleware/auth.go`  (the request gate),
* `internal/config/config.go`  (loading and validating the configuration).

Conventions. A Go `error` is `Option String` (`none` is `nil`, `some msg` carries the
message); a Go result pair `(*T, error)` is `Except String T` when exactly one side is
set, and a pair of options where the source can return both. Instants are integers
counting nanoseconds since the Unix epoch, durations are integers counting nanoseconds.
Operations that read the clock take the reading as the argument `now`.
Third-party packages (bcrypt, golang-jwt, the SQL driver) are not part of the
repository; their primitives are parameters of the embedding.
-/

set_option maxRecDepth 100000

namespace Findme

/-! ## Values -/

/-- Account identifier (`uuid.UUID`), held as the number its 16 bytes spell. -/
structure UUID where
  n : Nat
deriving DecidableEq, Repr

/-- One lower-case hexadecimal digit. -/
def hexChar (d : Nat) : Char :=
  if d < 10 then Char.ofNat (48 + d) else Char.ofNat (87 + d)

/-- The `k` lowest hexadecimal digits of `v`, most significant first. -/
def hexDigits : Nat → Nat → List Char
  | 0, _ => []
  | k + 1, v => hexDigits k (v / 16) ++ [hexChar (v % 16)]

/-- Canonical text form of an identifier (`uuid.UUID.String`): 8-4-4-4-12 hex digits. -/
def uuidString (u : UUID) : String :=
  let h := hexDigits 32 u.n
  String.mk (h.take 8 ++ ['-'] ++ (h.drop 8).take 4 ++ ['-'] ++ (h.drop 12).take 4
    ++ ['-'] ++ (h.drop 16).take 4 ++ ['-'] ++ h.drop 20)

/-- Two's-complement wrap of an integer into the `int64` range. -/
def wrapInt64 (x : Int) : Int :=
  (x + 9223372036854775808) % 18446744073709551616 - 9223372036854775808

/-- One second, in nanoseconds (`time.Second`). -/
def Second : Int := 1000000000

/-- One minute, in nanoseconds (`time.Minute`). -/
def Minute : Int := 60 * Second

/-- One hour, in nanoseconds (`time.Hour`). -/
def Hour : Int := 60 * Minute

/-! ## Records (`models/user.go`) -/

/-- The `models.User` record; it is also the shape of one row of the `users` table.
Nullable columns and pointer fields are options. -/
structure User where
  ID : UUID
  Email : String
  PasswordHash : String
  FullName : String
  DateOfBirth : Int
  Gender : String
  Bio : Option String
  VideoID : Option UUID
  Verified : Bool
  EmailVerificationToken : Option String
  EmailVerificationExpiresAt : Option Int
  PasswordResetToken : Option String
  PasswordResetExpiresAt : Option Int
  LastLoginAt : Option Int
  Active : Bool
  CreatedAt : Int
  UpdatedAt : Int
  DeletedAt : Option Int
deriving DecidableEq, Repr

/-- The zero value `&models.User{}`. -/
def zeroUser : User :=
  { ID := ⟨0⟩, Email := "", PasswordHash := "", FullName := "", DateOfBirth := 0,
    Gender := "", Bio := none, VideoID := none, Verified := false,
    EmailVerificationToken := none, EmailVerificationExpiresAt := none,
    PasswordResetToken := none, PasswordResetExpiresAt := none,
    LastLoginAt := none, Active := false, CreatedAt := 0, UpdatedAt := 0,
    DeletedAt := none }

/-- The `models.LoginRequest` record. -/
structure LoginRequest where
  Email : String
  Password : String
deriving DecidableEq, Repr

/-- The `models.TokenResponse` record. -/
structure TokenResponse where
  AccessToken : String
  RefreshToken : String
  ExpiresIn : Int
  TokenType : String
deriving DecidableEq, Repr

/-- The `models.AuthResponse` record. -/
structure AuthResponse where
  User : User
  Tokens : TokenResponse
deriving DecidableEq, Repr

/-! ## The store (`repository/postgres/user_repository.go`) -/

/-- The database behind `*sql.DB`: the rows of `users`, and the condition of the
connection. When `fault` is `some e` every statement fails with `e` and changes
nothing; when it is `none` statements execute. -/
structure DB where
  users : List User
  fault : Option String
deriving DecidableEq, Repr

/-- The thirteen columns read by the `SELECT` of `GetByID` and `GetByEmail`, scanned
into a fresh `models.User`; the fields that are not selected keep their zero value. -/
def scanUser (row : User) : User :=
  { zeroUser with
    ID := row.ID, Email := row.Email, PasswordHash := row.PasswordHash,
    FullName := row.FullName, DateOfBirth := row.DateOfBirth, Gender := row.Gender,
    Bio := row.Bio, VideoID := row.VideoID, Verified := row.Verified,
    LastLoginAt := row.LastLoginAt, Active := row.Active,
    CreatedAt := row.CreatedAt, UpdatedAt := row.UpdatedAt }

/-- Lookup `WHERE id = $1 AND deleted_at IS NULL`, first row. The result is the Go pair
`(user, err)`: `(nil, "user not found")` on no rows, otherwise `(user, err)` with the
error of the scan, which leaves `user` allocated also when it is not nil. -/
def userRepository.GetByID (db : DB) (id : UUID) : Option User × Option String :=
  match db.fault with
  | some e => (some zeroUser, some e)
  | none =>
    match db.users.find? (fun u => decide (u.ID = id) && u.DeletedAt.isNone) with
    | none => (none, some "user not found")
    | some row => (some (scanUser row), none)

/-- Lookup `WHERE email = $1 AND deleted_at IS NULL`, first row; result as for
`GetByID`. -/
def userRepository.GetByEmail (db : DB) (email : String) : Option User × Option String :=
  match db.fault with
  | some e => (some zeroUser, some e)
  | none =>
    match db.users.find? (fun u => decide (u.Email = email) && u.DeletedAt.isNone) with
    | none => (none, some "user not found")
    | some row => (some (scanUser row), none)

/-- Statement `UPDATE users SET last_login_at = NOW() WHERE id = $1`. -/
def userRepository.UpdateLastLogin (db : DB) (now : Int) (id : UUID) : Option String × DB :=
  match db.fault with
  | some e => (some e, db)
  | none =>
    (none, { db with users := db.users.map (fun u =>
      if u.ID = id then { u with LastLoginAt := some now } else u) })

/-! ## Password hashing (`golang.org/x/crypto/bcrypt`) -/

/-- The two bcrypt primitives the service calls. `GenerateFromPassword` takes the
password and the salt drawn for this call; `CompareHashAndPassword hash password` is
`true` exactly when the Go function returns a nil error. -/
structure Bcrypt where
  GenerateFromPassword : String → Nat → Except String String
  CompareHashAndPassword : String → String → Bool

/-! ## Signed tokens (`github.com/golang-jwt/jwt/v5` and `pkg/jwt/jwt.go`) -/

/-- The `jwt.RegisteredClaims` record. A `NumericDate` is a whole number of seconds
since the epoch; an unset date is `none`. -/
structure RegisteredClaims where
  Issuer : String
  Subject : String
  Audience : List String
  ExpiresAt : Option Int
  NotBefore : Option Int
  IssuedAt : Option Int
  ID : String
deriving DecidableEq, Repr

/-- The token payload of `pkg/jwt`: the three custom fields and the embedded
registered claims. The Go field `Type` is `Type_` here. -/
structure Claims where
  UserID : UUID
  Email : String
  Type_ : String
  Registered : RegisteredClaims
deriving DecidableEq, Repr

/-- Constructor `jwt.NewNumericDate`: the instant cut down to whole seconds. -/
def NewNumericDate (t : Int) : Int := t / Second

/-- The signing methods the library registers. -/
inductive SigningMethod where
  | HS256 | HS384 | HS512
  | RS256 | RS384 | RS512
  | PS256 | PS384 | PS512
  | ES256 | ES384 | ES512
  | EdDSA
  | none
deriving DecidableEq, Repr

/-- The name a method writes into the `alg` header (`SigningMethod.Alg`). -/
def SigningMethod.Alg : SigningMethod → String
  | .HS256 => "HS256" | .HS384 => "HS384" | .HS512 => "HS512"
  | .RS256 => "RS256" | .RS384 => "RS384" | .RS512 => "RS512"
  | .PS256 => "PS256" | .PS384 => "PS384" | .PS512 => "PS512"
  | .ES256 => "ES256" | .ES384 => "ES384" | .ES512 => "ES512"
  | .EdDSA => "EdDSA"
  | .none => "none"

/-- Lookup `jwt.GetSigningMethod`: the registered method of that name, if any. -/
def GetSigningMethod (alg : String) : Option SigningMethod :=
  [SigningMethod.HS256, .HS384, .HS512, .RS256, .RS384, .RS512, .PS256, .PS384, .PS512,
    .ES256, .ES384, .ES512, .EdDSA, .none].find? (fun m => m.Alg == alg)

/-- The type test `token.Method.(*jwt.SigningMethodHMAC)`: the three HMAC methods are
the values of that type. -/
def SigningMethod.isHMAC : SigningMethod → Bool
  | .HS256 | .HS384 | .HS512 => true
  | _ => false

/-- What the three dot-separated segments of a token string decode to: the `alg` entry
of the header, the claims, the text that was signed (the first two segments as
received) and the signature bytes. -/
structure Segments where
  alg : String
  claims : Claims
  text : String
  signature : String
deriving DecidableEq, Repr

/-- The encoding and cryptographic primitives of the token library.
`SigningString alg claims` is the header and claims segments of a new token;
`EncodeSegment` is the base64url encoding of a signature; `Sign` and `Verify` are
`SigningMethod.Sign` and `SigningMethod.Verify` with the key as its bytes
(`Verify` is `true` exactly on a nil error); `decode` splits and decodes a token
string, `none` when it is malformed. -/
structure JWTLib where
  SigningString : String → Claims → String
  EncodeSegment : String → String
  Sign : SigningMethod → String → String → Except String String
  Verify : SigningMethod → String → String → String → Bool
  decode : String → Option Segments

/-- The laws of the library the round trip rests on: an HMAC-SHA256 signature over a
byte key is always produced and verifies under the same key, and a token assembled
from a signing string and a signature decodes to what it was assembled from. -/
structure JWTLib.Lawful (lib : JWTLib) : Prop where
  sign_verify : ∀ text key, ∃ sig, lib.Sign .HS256 text key = .ok sig
    ∧ lib.Verify .HS256 text sig key = true
  decode_encode : ∀ alg claims sig,
    lib.decode (lib.SigningString alg claims ++ "." ++ lib.EncodeSegment sig)
      = some ⟨alg, claims, lib.SigningString alg claims, sig⟩

/-- The `jwt.Token` record. -/
structure Token where
  Raw : String
  Method : SigningMethod
  alg : String
  Claims : Claims
  Signature : String
  Valid : Bool
deriving DecidableEq, Repr

/-- Method `Token.SignedString` of a token made by `jwt.NewWithClaims method claims`:
the signing string, a dot, and the encoded signature. -/
def SignedString (lib : JWTLib) (method : SigningMethod) (claims : Claims) (key : String) :
    Except String String :=
  let sstr := lib.SigningString method.Alg claims
  match lib.Sign method sstr key with
  | .error e => .error e
  | .ok sig => .ok (sstr ++ "." ++ lib.EncodeSegment sig)

/-- Method `Parser.ParseUnverified`: decode the segments and resolve the method named
by the header. -/
def ParseUnverified (lib : JWTLib) (tokenString : String) : Except String Token :=
  match lib.decode tokenString with
  | none => .error "token is malformed"
  | some seg =>
    match GetSigningMethod seg.alg with
    | none => .error "token is unverifiable: signing method (alg) is unavailable"
    | some method =>
      .ok { Raw := tokenString, Method := method, alg := seg.alg, Claims := seg.claims,
            Signature := seg.signature, Valid := false }

/-- Method `Validator.Validate` with the default options, at clock reading `now`:
`exp`, when set, must lie after `now`; `nbf`, when set, must not lie after `now`;
`iat`, issuer, audience and subject are not checked. -/
def Validate (now : Int) (claims : Claims) : Option String :=
  let expOk := match claims.Registered.ExpiresAt with
    | some exp => decide (now < exp * Second)
    | none => true
  let nbfOk := match claims.Registered.NotBefore with
    | some nbf => decide (nbf * Second ≤ now)
    | none => true
  if !expOk then some "token has invalid claims: token is expired"
  else if !nbfOk then some "token has invalid claims: token is not valid yet"
  else none

/-- Function `jwt.ParseWithClaims` with a default parser: parse, ask the key function
for the key, verify the signature over the received text, validate the claims, and
only then mark the token valid. -/
def ParseWithClaims (lib : JWTLib) (now : Int) (tokenString : String)
    (keyFunc : Token → Except String String) : Except String Token :=
  match ParseUnverified lib tokenString with
  | .error e => .error e
  | .ok token =>
    match lib.decode tokenString with
    | none => .error "token is malformed"
    | some seg =>
      match keyFunc token with
      | .error e => .error ("token is unverifiable: error while executing keyfunc: " ++ e)
      | .ok key =>
        if lib.Verify token.Method seg.text token.Signature key then
          match Validate now token.Claims with
          | some e => .error e
          | none => .ok { token with Valid := true }
        else .error "token signature is invalid"

/-- The `JWTManager` record. -/
structure JWTManager where
  secretKey : String
  accessTokenDuration : Int
  refreshTokenDuration : Int
deriving DecidableEq, Repr

/-- Constructor `NewJWTManager`; the products are `int64` products. -/
def NewJWTManager (secretKey : String) (accessMinutes refreshDays : Int) : JWTManager :=
  { secretKey := secretKey,
    accessTokenDuration := wrapInt64 (wrapInt64 accessMinutes * Minute),
    refreshTokenDuration := wrapInt64 (wrapInt64 (wrapInt64 refreshDays * 24) * Hour) }

/-- Method `JWTManager.GenerateAccessToken`, at clock reading `now`. -/
def JWTManager.GenerateAccessToken (lib : JWTLib) (m : JWTManager) (now : Int)
    (userID : UUID) (email : String) : Except String String :=
  let claims : Claims :=
    { UserID := userID, Email := email, Type_ := "access",
      Registered :=
        { Issuer := "", Subject := uuidString userID, Audience := [],
          ExpiresAt := some (NewNumericDate (now + m.accessTokenDuration)),
          NotBefore := none,
          IssuedAt := some (NewNumericDate now), ID := "" } }
  SignedString lib .HS256 claims m.secretKey

/-- Method `JWTManager.GenerateRefreshToken`, at clock reading `now`. -/
def JWTManager.GenerateRefreshToken (lib : JWTLib) (m : JWTManager) (now : Int)
    (userID : UUID) (email : String) : Except String String :=
  let claims : Claims :=
    { UserID := userID, Email := email, Type_ := "refresh",
      Registered :=
        { Issuer := "", Subject := uuidString userID, Audience := [],
          ExpiresAt := some (NewNumericDate (now + m.refreshTokenDuration)),
          NotBefore := none,
          IssuedAt := some (NewNumericDate now), ID := "" } }
  SignedString lib .HS256 claims m.secretKey

/-- The key function `ValidateToken` passes to the parser: the secret is handed out
only for a method of the HMAC type. -/
def JWTManager.keyFunc (m : JWTManager) (token : Token) : Except String String :=
  if token.Method.isHMAC then .ok m.secretKey
  else .error ("unexpected signing method: " ++ token.alg)

/-- Method `JWTManager.ValidateToken`, at clock reading `now`. -/
def JWTManager.ValidateToken (lib : JWTLib) (m : JWTManager) (now : Int)
    (tokenString : String) : Except String Claims :=
  match ParseWithClaims lib now tokenString m.keyFunc with
  | .error e => .error e
  | .ok token => if token.Valid then .ok token.Claims else .error "invalid token"

/-- Floor of the binary logarithm, by halving at most `fuel` times. -/
def log2Fuel : Nat → Nat → Nat
  | 0, _ => 0
  | fuel + 1, n => if 2 ≤ n then log2Fuel fuel (n / 2) + 1 else 0

/-- Floor of the binary logarithm of `n` (`0` for `n = 0`). -/
def floorLog2 (n : Nat) : Nat := log2Fuel n n

/-- The integer nearest to `n / d`, the even one of the two when `n / d` lies half-way. -/
def roundHalfEven (n d : Nat) : Nat :=
  if 2 * (n % d) < d then n / d
  else if d < 2 * (n % d) then n / d + 1
  else if n / d % 2 = 0 then n / d
  else n / d + 1

/-- A finite `float64`: the number `mant * 2 ^ exp`, negated when `neg` is set. -/
structure Float64 where
  neg : Bool
  mant : Nat
  exp : Int
deriving DecidableEq, Repr

/-- The `float64` nearest to the quotient `p / q` (`q` positive), ties to the even
significand, as IEEE 754 division and addition round: a significand of 53 bits, the
exponent unbounded (the quotients met here lie between `1e-9` and `2 ^ 64`, far from
the ends of the exponent range). -/
def Float64.ofRatio (neg : Bool) (p q : Nat) : Float64 :=
  if p = 0 then { neg := neg, mant := 0, exp := 0 }
  else
    let l : Int := (floorLog2 p : Int) - (floorLog2 q : Int)
    let reached : Bool :=
      if 0 ≤ l then decide (q * 2 ^ l.toNat ≤ p) else decide (q ≤ p * 2 ^ (-l).toNat)
    let e : Int := (if reached then l else l - 1) - 52
    { neg := neg, mant := roundHalfEven (p * 2 ^ (-e).toNat) (q * 2 ^ e.toNat), exp := e }

/-- Conversion `int(x)` of a `float64` within the `int64` range: the fraction is
dropped. -/
def Float64.toInt (x : Float64) : Int :=
  let whole : Nat := x.mant * 2 ^ x.exp.toNat / 2 ^ (-x.exp).toNat
  if x.neg then -(whole : Int) else (whole : Int)

/-- Method `time.Duration.Seconds` of a duration in the `int64` range:
`float64(d / Second) + float64(d % Second) / 1e9`, with the truncating `/` and `%` of
Go. The two conversions are exact (whole numbers below `2 ^ 53`); the division and
then the sum are each rounded to the nearest `float64`. -/
def Duration.Seconds (d : Int) : Float64 :=
  let sec : Nat := d.natAbs / 1000000000
  let nsec : Nat := d.natAbs % 1000000000
  let frac : Float64 := Float64.ofRatio (decide (d < 0)) nsec 1000000000
  let k : Nat := (-frac.exp).toNat
  Float64.ofRatio (decide (d < 0)) (sec * 2 ^ k + frac.mant * 2 ^ frac.exp.toNat) (2 ^ k)

/-- Method `JWTManager.GetAccessTokenDuration`: `int(m.accessTokenDuration.Seconds())`. -/
def JWTManager.GetAccessTokenDuration (m : JWTManager) : Int :=
  (Duration.Seconds m.accessTokenDuration).toInt

/-! ## The service (`service/auth/auth_service.go`) -/

/-- Method `authService.Login`, at clock reading `now`: the result and the store after
the call. -/
def authService.Login (bc : Bcrypt) (lib : JWTLib) (m : JWTManager) (db : DB) (now : Int)
    (req : LoginRequest) : Except String AuthResponse × DB :=
  match userRepository.GetByEmail db req.Email with
  | (_, some _) => (.error "invalid credentials", db)
  | (none, none) => (.error "runtime error: nil pointer dereference", db)
  | (some user, none) =>
    if !bc.CompareHashAndPassword user.PasswordHash req.Password then
      (.error "invalid credentials", db)
    else if !user.Active then
      (.error "account is inactive", db)
    else
      let db1 := (userRepository.UpdateLastLogin db now user.ID).2
      match m.GenerateAccessToken lib now user.ID user.Email with
      | .error e => (.error e, db1)
      | .ok accessToken =>
        match m.GenerateRefreshToken lib now user.ID user.Email with
        | .error e => (.error e, db1)
        | .ok refreshToken =>
          (.ok { User := user,
                 Tokens := { AccessToken := accessToken, RefreshToken := refreshToken,
                             ExpiresIn := m.GetAccessTokenDuration,
                             TokenType := "Bearer" } }, db1)

/-- Method `authService.RefreshToken`, at clock reading `now`. -/
def authService.RefreshToken (lib : JWTLib) (m : JWTManager) (now : Int)
    (refreshToken : String) : Except String TokenResponse :=
  match m.ValidateToken lib now refreshToken with
  | .error _ => .error "invalid refresh token"
  | .ok claims =>
    if claims.Type_ ≠ "refresh" then .error "invalid token type"
    else
      match m.GenerateAccessToken lib now claims.UserID claims.Email with
      | .error e => .error e
      | .ok accessToken =>
        .ok { AccessToken := accessToken, RefreshToken := refreshToken,
              ExpiresIn := m.GetAccessTokenDuration, TokenType := "Bearer" }

/-! ## Single-use tokens in the store -/

/-- The `WHERE` clause of `userRepository.VerifyEmail`:
`email_verification_token = $1 AND email_verification_expires_at > NOW()`.
A comparison with a `NULL` column does not hold. -/
def verifyEmailMatches (now : Int) (token : String) (u : User) : Bool :=
  decide (u.EmailVerificationToken = some token) &&
    (match u.EmailVerificationExpiresAt with
     | some exp => decide (now < exp)
     | none => false)

/-- The `SET` clause of `userRepository.VerifyEmail`. -/
def verifyEmailSet (u : User) : User :=
  { u with Verified := true, EmailVerificationToken := none,
           EmailVerificationExpiresAt := none }

/-- Method `userRepository.VerifyEmail`, with `NOW()` reading `now`: one `UPDATE` over
the table, then the check of the number of rows it affected. -/
def userRepository.VerifyEmail (db : DB) (now : Int) (token : String) : Option String × DB :=
  match db.fault with
  | some e => (some e, db)
  | none =>
    let rows := (db.users.filter (verifyEmailMatches now token)).length
    let db1 : DB := { db with users := db.users.map (fun u =>
      if verifyEmailMatches now token u then verifyEmailSet u else u) }
    if rows = 0 then (some "invalid or expired token", db1) else (none, db1)

/-- Method `authService.VerifyEmail`: the repository call, passed through. -/
def authService.VerifyEmail (db : DB) (now : Int) (token : String) : Option String × DB :=
  userRepository.VerifyEmail db now token

/-- The `WHERE` clause of `userRepository.ResetPassword`:
`password_reset_token = $2 AND password_reset_expires_at > NOW()`. -/
def resetPasswordMatches (now : Int) (token : String) (u : User) : Bool :=
  decide (u.PasswordResetToken = some token) &&
    (match u.PasswordResetExpiresAt with
     | some exp => decide (now < exp)
     | none => false)

/-- The `SET` clause of `userRepository.ResetPassword`. -/
def resetPasswordSet (passwordHash : String) (u : User) : User :=
  { u with PasswordHash := passwordHash, PasswordResetToken := none,
           PasswordResetExpiresAt := none }

/-- Method `userRepository.ResetPassword`, with `NOW()` reading `now`. -/
def userRepository.ResetPassword (db : DB) (now : Int) (token : String)
    (passwordHash : String) : Option String × DB :=
  match db.fault with
  | some e => (some e, db)
  | none =>
    let rows := (db.users.filter (resetPasswordMatches now token)).length
    let db1 : DB := { db with users := db.users.map (fun u =>
      if resetPasswordMatches now token u then resetPasswordSet passwordHash u else u) }
    if rows = 0 then (some "invalid or expired token", db1) else (none, db1)

/-! ## The request gate (`api/middleware/auth.go`) -/

/-- A value stored in the request context: the gate stores an identifier and a text. -/
inductive CtxValue where
  | uuid (u : UUID)
  | str (s : String)
deriving DecidableEq, Repr

/-- What the gate can observe and change of a `gin.Context`: the key-value store, the
response written so far (status and the `error` text of its JSON body), whether the
chain was aborted, and whether the remaining handlers were run. -/
structure Context where
  Keys : List (String × CtxValue)
  response : Option (Nat × String)
  aborted : Bool
  next : Bool
deriving DecidableEq, Repr

/-- Method `c.JSON(code, gin.H{"error": msg})`. -/
def Context.JSON (c : Context) (code : Nat) (msg : String) : Context :=
  { c with response := some (code, msg) }

/-- Method `c.Abort()`. -/
def Context.Abort (c : Context) : Context := { c with aborted := true }

/-- Method `c.Set(key, value)`: the entry for `key` is replaced. -/
def Context.Set (c : Context) (key : String) (value : CtxValue) : Context :=
  { c with Keys := (key, value) :: c.Keys.filter (fun kv => kv.1 != key) }

/-- Method `c.Get(key)`. -/
def Context.Get (c : Context) (key : String) : Option CtxValue := c.Keys.lookup key

/-- Method `c.Next()`: the remaining handlers run. -/
def Context.Next (c : Context) : Context := { c with next := true }

/-- Cutting a text at every occurrence of the character `sep`; the pieces between the
occurrences, in order. -/
def splitChars (sep : Char) : List Char → List (List Char)
  | [] => [[]]
  | c :: cs =>
    if c = sep then [] :: splitChars sep cs
    else
      match splitChars sep cs with
      | [] => [[c]]
      | p :: ps => (c :: p) :: ps

/-- Function `strings.Split(s, sep)` for a separator of one character. -/
def Split (s : String) (sep : Char) : List String :=
  (splitChars sep s.data).map String.mk

/-- The constant `http.StatusUnauthorized`. -/
def StatusUnauthorized : Nat := 401

/-- The handler returned by `AuthMiddleware.RequireAuth`, run at clock reading `now` on
a request whose `Authorization` header is `authHeader` (empty when absent). -/
def AuthMiddleware.RequireAuth (lib : JWTLib) (m : JWTManager) (now : Int)
    (authHeader : String) (c : Context) : Context :=
  if authHeader = "" then
    (c.JSON StatusUnauthorized "authorization header required").Abort
  else
    let parts := Split authHeader ' '
    if parts.length ≠ 2 ∨ parts[0]? ≠ some "Bearer" then
      (c.JSON StatusUnauthorized "invalid authorization header format").Abort
    else
      let token := parts.getD 1 ""
      match m.ValidateToken lib now token with
      | .error _ => (c.JSON StatusUnauthorized "invalid or expired token").Abort
      | .ok claims =>
        if claims.Type_ ≠ "access" then
          (c.JSON StatusUnauthorized "invalid token type").Abort
        else
          ((c.Set "user_id" (.uuid claims.UserID)).Set "user_email"
            (.str claims.Email)).Next

/-! ## Writes to the store (`repository/postgres/user_repository.go`) -/

/-- Modelled from the spec: the declaration of the table `users` is not among the
sources. The spec has the id unique and the email unique among the accounts that are
not deleted; an `INSERT` of a row that breaks either is refused by the store with the
error returned here. -/
def usersConstraint (users : List User) (row : User) : Option String :=
  if users.any (fun u => decide (u.ID = row.ID)) then
    some "pq: duplicate key value violates unique constraint users_pkey"
  else if users.any (fun u => decide (u.Email = row.Email) && u.DeletedAt.isNone) then
    some "pq: duplicate key value violates unique constraint users_email_key"
  else none

/-- Modelled from the spec: the column defaults of the table `users`, whose declaration
is not among the sources. The row stored by the `INSERT` of `Create`: the eight
columns it lists, the id the store generates, both timestamps at the time of the
insert, and every other nullable column `NULL`. -/
def insertedRow (now : Int) (id : UUID) (user : User) : User :=
  { zeroUser with
    ID := id, Email := user.Email, PasswordHash := user.PasswordHash,
    FullName := user.FullName, DateOfBirth := user.DateOfBirth, Gender := user.Gender,
    Bio := user.Bio, Verified := user.Verified, Active := user.Active,
    CreatedAt := now, UpdatedAt := now }

/-- Method `userRepository.Create`, with `NOW()` reading `now` and `id` the identifier
the store generates: the error, the `user` record after the scan of the returned
columns, and the store. -/
def userRepository.Create (db : DB) (now : Int) (id : UUID) (user : User) :
    Option String × User × DB :=
  match db.fault with
  | some e => (some e, user, db)
  | none =>
    match usersConstraint db.users (insertedRow now id user) with
    | some e => (some e, user, db)
    | none =>
      (none, { user with ID := id, CreatedAt := now, UpdatedAt := now },
        { db with users := db.users ++ [insertedRow now id user] })

/-- Method `userRepository.Update`, with `NOW()` reading `now`:
`SET full_name, bio, updated_at WHERE id = $3 AND deleted_at IS NULL RETURNING
updated_at`; the scan of a statement that returned no row fails. -/
def userRepository.Update (db : DB) (now : Int) (user : User) : Option String × User × DB :=
  match db.fault with
  | some e => (some e, user, db)
  | none =>
    let db1 : DB := { db with users := db.users.map (fun u =>
      if decide (u.ID = user.ID) && u.DeletedAt.isNone then
        { u with FullName := user.FullName, Bio := user.Bio, UpdatedAt := now }
      else u) }
    if db.users.any (fun u => decide (u.ID = user.ID) && u.DeletedAt.isNone) then
      (none, { user with UpdatedAt := now }, db1)
    else (some "sql: no rows in result set", user, db1)

/-- Method `userRepository.Delete`: `UPDATE users SET deleted_at = NOW() WHERE id = $1`. -/
def userRepository.Delete (db : DB) (now : Int) (id : UUID) : Option String × DB :=
  match db.fault with
  | some e => (some e, db)
  | none =>
    (none, { db with users := db.users.map (fun u =>
      if u.ID = id then { u with DeletedAt := some now } else u) })

/-- Method `userRepository.SetEmailVerificationToken`:
`SET email_verification_token = $1, email_verification_expires_at = $2 WHERE id = $3`.
The expiry is an `sql.NullTime`. -/
def userRepository.SetEmailVerificationToken (db : DB) (id : UUID) (token : String)
    (expiresAt : Option Int) : Option String × DB :=
  match db.fault with
  | some e => (some e, db)
  | none =>
    (none, { db with users := db.users.map (fun u =>
      if u.ID = id then
        { u with EmailVerificationToken := some token,
                 EmailVerificationExpiresAt := expiresAt }
      else u) })

/-- Method `userRepository.SetPasswordResetToken`:
`SET password_reset_token = $1, password_reset_expires_at = $2
WHERE email = $3 AND deleted_at IS NULL`. -/
def userRepository.SetPasswordResetToken (db : DB) (email : String) (token : String)
    (expiresAt : Option Int) : Option String × DB :=
  match db.fault with
  | some e => (some e, db)
  | none =>
    (none, { db with users := db.users.map (fun u =>
      if decide (u.Email = email) && u.DeletedAt.isNone then
        { u with PasswordResetToken := some token, PasswordResetExpiresAt := expiresAt }
      else u) })

/-! ## Registration and password reset (`service/auth/auth_service.go`) -/

/-- The `models.RegisterRequest` record. -/
structure RegisterRequest where
  Email : String
  Password : String
  FullName : String
  DateOfBirth : String
  Gender : String
deriving DecidableEq, Repr

/-- Function `generateToken`. The argument is the outcome of `rand.Read` on the buffer
of 32 bytes: the bytes read, or the error; the token is their lower-case hexadecimal
text. -/
def generateToken (rand : Except String (List Nat)) : String × Option String :=
  match rand with
  | .error e => ("", some e)
  | .ok bytes =>
    (String.mk (bytes.flatMap (fun b => [hexChar (b / 16 % 16), hexChar (b % 16)])), none)

/-- Method `authService.Register`, at clock reading `now`. `parse` is
`time.Parse("2006-01-02", ·)` (`none` on an error); `salt`, `id` and `rand` are what
this call draws: the bcrypt salt, the identifier the store gives the new row, and the
outcome of the random read for the verification token. -/
def authService.Register (bc : Bcrypt) (lib : JWTLib) (m : JWTManager)
    (parse : String → Option Int) (db : DB) (now : Int) (req : RegisterRequest)
    (salt : Nat) (id : UUID) (rand : Except String (List Nat)) :
    Except String AuthResponse × DB :=
  match (userRepository.GetByEmail db req.Email).1 with
  | some _ => (.error "email already registered", db)
  | none =>
    match bc.GenerateFromPassword req.Password salt with
    | .error e => (.error e, db)
    | .ok hashedPassword =>
      match parse req.DateOfBirth with
      | none => (.error "invalid date format", db)
      | some dob =>
        let user : User :=
          { zeroUser with
            Email := req.Email, PasswordHash := hashedPassword, FullName := req.FullName,
            DateOfBirth := dob, Gender := req.Gender, Verified := false, Active := true }
        match userRepository.Create db now id user with
        | (some e, _, db1) => (.error e, db1)
        | (none, user1, db1) =>
          let db2 : DB :=
            match generateToken rand with
            | (verificationToken, none) =>
              (userRepository.SetEmailVerificationToken db1 user1.ID verificationToken
                (some (now + 24 * Hour))).2
            | (_, some _) => db1
          match m.GenerateAccessToken lib now user1.ID user1.Email with
          | .error e => (.error e, db2)
          | .ok accessToken =>
            match m.GenerateRefreshToken lib now user1.ID user1.Email with
            | .error e => (.error e, db2)
            | .ok refreshToken =>
              (.ok { User := user1,
                     Tokens := { AccessToken := accessToken, RefreshToken := refreshToken,
                                 ExpiresIn := m.GetAccessTokenDuration,
                                 TokenType := "Bearer" } }, db2)

/-- Method `authService.RequestPasswordReset`, at clock reading `now`, with `rand` the
outcome of the random read for the reset token: the returned pair and the store. -/
def authService.RequestPasswordReset (db : DB) (now : Int) (email : String)
    (rand : Except String (List Nat)) : (String × Option String) × DB :=
  match (userRepository.GetByEmail db email).2 with
  | some _ => (("", none), db)
  | none =>
    match generateToken rand with
    | (_, some e) => (("", some e), db)
    | (resetToken, none) =>
      match userRepository.SetPasswordResetToken db email resetToken
          (some (now + 1 * Hour)) with
      | (some e, db1) => (("", some e), db1)
      | (none, db1) => ((resetToken, none), db1)

/-- Method `authService.ResetPassword`, with `NOW()` reading `now` and `salt` the bcrypt
salt drawn for this call. -/
def authService.ResetPassword (bc : Bcrypt) (db : DB) (now : Int) (token newPassword : String)
    (salt : Nat) : Option String × DB :=
  match bc.GenerateFromPassword newPassword salt with
  | .error e => (some e, db)
  | .ok hashedPassword => userRepository.ResetPassword db now token hashedPassword

/-- The law of bcrypt the reset rests on: a hash that was generated from a password is
accepted for that password. -/
def Bcrypt.Lawful (bc : Bcrypt) : Prop :=
  ∀ password salt hash, bc.GenerateFromPassword password salt = .ok hash →
    bc.CompareHashAndPassword hash password = true

/-- The operations of `UserRepository` that write, with their arguments. -/
inductive RepoOp where
  | Create (now : Int) (id : UUID) (user : User)
  | Update (now : Int) (user : User)
  | Delete (now : Int) (id : UUID)
  | UpdateLastLogin (now : Int) (id : UUID)
  | SetEmailVerificationToken (id : UUID) (token : String) (expiresAt : Option Int)
  | VerifyEmail (now : Int) (token : String)
  | SetPasswordResetToken (email : String) (token : String) (expiresAt : Option Int)
  | ResetPassword (now : Int) (token : String) (passwordHash : String)

/-- Running one repository operation: the error it returns and the store after it. -/
def RepoOp.run (op : RepoOp) (db : DB) : Option String × DB :=
  match op with
  | .Create now id user =>
    ((userRepository.Create db now id user).1, (userRepository.Create db now id user).2.2)
  | .Update now user =>
    ((userRepository.Update db now user).1, (userRepository.Update db now user).2.2)
  | .Delete now id => userRepository.Delete db now id
  | .UpdateLastLogin now id => userRepository.UpdateLastLogin db now id
  | .SetEmailVerificationToken id token expiresAt =>
    userRepository.SetEmailVerificationToken db id token expiresAt
  | .VerifyEmail now token => userRepository.VerifyEmail db now token
  | .SetPasswordResetToken email token expiresAt =>
    userRepository.SetPasswordResetToken db email token expiresAt
  | .ResetPassword now token passwordHash =>
    userRepository.ResetPassword db now token passwordHash

/-! ## Configuration (`internal/config/config.go`) -/

/-- The `Config` record. -/
structure Config where
  ServerHost : String
  ServerPort : String
  Environment : String
  DBHost : String
  DBPort : String
  DBUser : String
  DBPassword : String
  DBName : String
  DBSSL : String
  RedisHost : String
  RedisPort : String
  RedisPassword : String
  RedisDB : Int
  QdrantHost : String
  QdrantPort : String
  QdrantAPIKey : String
  JWTSecret : String
  JWTAccessTokenMinutes : Int
  JWTRefreshTokenDays : Int
  AWSRegion : String
  AWSAccessKeyID : String
  AWSSecretAccessKey : String
  S3BucketName : String
  SMTPHost : String
  SMTPPort : String
  SMTPUsername : String
  SMTPPassword : String
  SMTPFrom : String
  TwilioAccountSID : String
  TwilioAuthToken : String
  TwilioAPIKey : String
  TwilioAPISecret : String
  OpenAIAPIKey : String
  OpenAIModel : String
  MaxUploadSize : Int
  AllowedOrigins : List String
  RateLimitPerMin : Int
  ProfileVideoMaxDuration : Int
deriving DecidableEq, Repr

/-- The process environment as `os.Getenv` reads it: the value of a variable, empty
when it is not set. -/
abbrev Environ := String → String

/-- The number spelled by a non-empty run of decimal digits. -/
def parseDecimal (cs : List Char) : Option Nat :=
  match cs with
  | [] => none
  | _ =>
    cs.foldl (fun acc c =>
      match acc with
      | none => none
      | some n => if c.isDigit then some (n * 10 + (c.toNat - 48)) else none) (some 0)

/-- Function `strconv.ParseInt(s, 10, 64)`, which is also `strconv.Atoi` where `int` has
64 bits: an optional sign and decimal digits, within the `int64` range. -/
def ParseInt (s : String) : Option Int :=
  match s.data with
  | '-' :: ds =>
    match parseDecimal ds with
    | some n => if n ≤ 9223372036854775808 then some (-(n : Int)) else none
    | none => none
  | '+' :: ds =>
    match parseDecimal ds with
    | some n => if n < 9223372036854775808 then some (n : Int) else none
    | none => none
  | ds =>
    match parseDecimal ds with
    | some n => if n < 9223372036854775808 then some (n : Int) else none
    | none => none

/-- Function `getEnv`. -/
def getEnv (env : Environ) (key defaultValue : String) : String :=
  if env key ≠ "" then env key else defaultValue

/-- Function `getEnvInt`. -/
def getEnvInt (env : Environ) (key : String) (defaultValue : Int) : Int :=
  if env key ≠ "" then
    match ParseInt (env key) with
    | some intVal => intVal
    | none => defaultValue
  else defaultValue

/-- Function `getEnvInt64`. -/
def getEnvInt64 (env : Environ) (key : String) (defaultValue : Int) : Int :=
  if env key ≠ "" then
    match ParseInt (env key) with
    | some intVal => intVal
    | none => defaultValue
  else defaultValue

/-- Method `Config.Validate`. -/
def Config.Validate (c : Config) : Option String :=
  if c.JWTSecret = "your-secret-key-change-in-production" ∧ c.Environment = "production" then
    some "JWT_SECRET must be set in production"
  else none

/-- Function `Load`. The argument is the environment as it stands after
`godotenv.Load()` has added the variables of a `.env` file, if there is one. -/
def Load (env : Environ) : Except String Config :=
  let cfg : Config :=
    { ServerHost := getEnv env "SERVER_HOST" "0.0.0.0",
      ServerPort := getEnv env "SERVER_PORT" "8080",
      Environment := getEnv env "ENVIRONMENT" "development",
      DBHost := getEnv env "DB_HOST" "localhost",
      DBPort := getEnv env "DB_PORT" "5432",
      DBUser := getEnv env "DB_USER" "findme",
      DBPassword := getEnv env "DB_PASSWORD" "findme_password",
      DBName := getEnv env "DB_NAME" "findme_db",
      DBSSL := getEnv env "DB_SSL" "disable",
      RedisHost := getEnv env "REDIS_HOST" "localhost",
      RedisPort := getEnv env "REDIS_PORT" "6379",
      RedisPassword := getEnv env "REDIS_PASSWORD" "",
      RedisDB := getEnvInt env "REDIS_DB" 0,
      QdrantHost := getEnv env "QDRANT_HOST" "localhost",
      QdrantPort := getEnv env "QDRANT_PORT" "6333",
      QdrantAPIKey := getEnv env "QDRANT_API_KEY" "",
      JWTSecret := getEnv env "JWT_SECRET" "your-secret-key-change-in-production",
      JWTAccessTokenMinutes := getEnvInt env "JWT_ACCESS_TOKEN_MINUTES" 15,
      JWTRefreshTokenDays := getEnvInt env "JWT_REFRESH_TOKEN_DAYS" 7,
      AWSRegion := getEnv env "AWS_REGION" "us-east-1",
      AWSAccessKeyID := getEnv env "AWS_ACCESS_KEY_ID" "",
      AWSSecretAccessKey := getEnv env "AWS_SECRET_ACCESS_KEY" "",
      S3BucketName := getEnv env "S3_BUCKET_NAME" "",
      SMTPHost := getEnv env "SMTP_HOST" "",
      SMTPPort := getEnv env "SMTP_PORT" "587",
      SMTPUsername := getEnv env "SMTP_USERNAME" "",
      SMTPPassword := getEnv env "SMTP_PASSWORD" "",
      SMTPFrom := getEnv env "SMTP_FROM" "noreply@findme.app",
      TwilioAccountSID := getEnv env "TWILIO_ACCOUNT_SID" "",
      TwilioAuthToken := getEnv env "TWILIO_AUTH_TOKEN" "",
      TwilioAPIKey := getEnv env "TWILIO_API_KEY" "",
      TwilioAPISecret := getEnv env "TWILIO_API_SECRET" "",
      OpenAIAPIKey := getEnv env "OPENAI_API_KEY" "",
      OpenAIModel := getEnv env "OPENAI_MODEL" "gpt-4",
      MaxUploadSize := getEnvInt64 env "MAX_UPLOAD_SIZE" (100 * 1024 * 1024),
      AllowedOrigins := [],
      RateLimitPerMin := getEnvInt env "RATE_LIMIT_PER_MIN" 60,
      ProfileVideoMaxDuration := getEnvInt env "PROFILE_VIDEO_MAX_DURATION" 30 }
  match cfg.Validate with
  | some e => .error e
  | none => .ok cfg

/-! ## A small instance of the library parameters

A self-delimiting text codec and a keyed tag, standing in for base64url-JSON and
HMAC-SHA256. It is used to instantiate the parameters at concrete inputs. -/

namespace Ref

/-- A text field: every character behind an `x`, closed by `;`. -/
def encStr (s : List Char) : List Char :=
  match s with
  | [] => [';']
  | c :: cs => 'x' :: c :: encStr cs

/-- Reads one text field off the front. -/
def decStr : List Char → Option (List Char × List Char)
  | [] => none
  | [c] => if c = ';' then some ([], []) else none
  | c :: d :: rest =>
    if c = ';' then some ([], d :: rest)
    else if c = 'x' then
      match decStr rest with
      | some (s, r) => some (d :: s, r)
      | none => none
    else none

/-- A number field, in unary: that many `i`, closed by `;`. -/
def encNat (n : Nat) : List Char :=
  match n with
  | 0 => [';']
  | k + 1 => 'i' :: encNat k

/-- Reads one number field off the front. -/
def decNat : List Char → Option (Nat × List Char)
  | [] => none
  | c :: rest =>
    if c = ';' then some (0, rest)
    else if c = 'i' then
      match decNat rest with
      | some (n, r) => some (n + 1, r)
      | none => none
    else none

/-- An optional date field: `n` when unset, else a sign and the magnitude. -/
def encOptInt (v : Option Int) : List Char :=
  match v with
  | none => ['n']
  | some (Int.ofNat k) => 'p' :: encNat k
  | some (Int.negSucc k) => 'm' :: encNat k

/-- Reads one optional date field off the front. -/
def decOptInt : List Char → Option (Option Int × List Char)
  | [] => none
  | c :: rest =>
    if c = 'n' then some (none, rest)
    else if c = 'p' then
      match decNat rest with
      | some (k, r) => some (some (Int.ofNat k), r)
      | none => none
    else if c = 'm' then
      match decNat rest with
      | some (k, r) => some (some (Int.negSucc k), r)
      | none => none
    else none

/-- A list of text fields, one after the other. -/
def encStrs (l : List String) : List Char :=
  match l with
  | [] => []
  | a :: as => encStr a.data ++ encStrs as

/-- Reads `n` text fields off the front. -/
def decStrs : Nat → List Char → Option (List String × List Char)
  | 0, r => some ([], r)
  | n + 1, r =>
    match decStr r with
    | none => none
    | some (a, r1) =>
      match decStrs n r1 with
      | none => none
      | some (as, r2) => some (String.mk a :: as, r2)

/-- The claims segment. -/
def encClaims (c : Claims) : List Char :=
  encNat c.UserID.n ++ (encStr c.Email.data ++ (encStr c.Type_.data
    ++ (encStr c.Registered.Issuer.data ++ (encStr c.Registered.Subject.data
    ++ (encNat c.Registered.Audience.length ++ (encStrs c.Registered.Audience
    ++ (encOptInt c.Registered.ExpiresAt ++ (encOptInt c.Registered.NotBefore
    ++ (encOptInt c.Registered.IssuedAt ++ encStr c.Registered.ID.data)))))))))

/-- Reads the claims segment off the front. -/
def decClaims (r : List Char) : Option (Claims × List Char) :=
  match decNat r with
  | none => none
  | some (uid, r1) =>
  match decStr r1 with
  | none => none
  | some (email, r2) =>
  match decStr r2 with
  | none => none
  | some (typ, r3) =>
  match decStr r3 with
  | none => none
  | some (iss, r4) =>
  match decStr r4 with
  | none => none
  | some (sub, r5) =>
  match decNat r5 with
  | none => none
  | some (naud, r6) =>
  match decStrs naud r6 with
  | none => none
  | some (aud, r7) =>
  match decOptInt r7 with
  | none => none
  | some (exp, r8) =>
  match decOptInt r8 with
  | none => none
  | some (nbf, r9) =>
  match decOptInt r9 with
  | none => none
  | some (iat, r10) =>
  match decStr r10 with
  | none => none
  | some (jti, r11) =>
    some ({ UserID := ⟨uid⟩, Email := String.mk email, Type_ := String.mk typ,
            Registered := { Issuer := String.mk iss, Subject := String.mk sub,
                            Audience := aud, ExpiresAt := exp, NotBefore := nbf,
                            IssuedAt := iat, ID := String.mk jti } }, r11)

/-- The header and claims segments. -/
def signingChars (alg : String) (c : Claims) : List Char :=
  encStr alg.data ++ encClaims c

/-- Decoding of a whole token: header, claims, a dot, the signature, and nothing more. -/
def decodeChars (r : List Char) : Option Segments :=
  match decStr r with
  | none => none
  | some (alg, r1) =>
  match decClaims r1 with
  | none => none
  | some (c, r2) =>
  match r2 with
  | [] => none
  | d :: r3 =>
    if d = '.' then
      match decStr r3 with
      | some (sig, []) =>
        some ⟨String.mk alg, c, String.mk (signingChars (String.mk alg) c), String.mk sig⟩
      | _ => none
    else none

/-- The keyed tag: method name, key and text, each as a field. -/
def tag (method : SigningMethod) (text key : String) : String :=
  String.mk (encStr method.Alg.data ++ (encStr key.data ++ encStr text.data))

/-- The instance: only the HMAC methods sign and verify. -/
def lib : JWTLib where
  SigningString alg c := String.mk (signingChars alg c)
  EncodeSegment sig := String.mk (encStr sig.data)
  Sign method text key :=
    if method.isHMAC then .ok (tag method text key) else .error "key is of invalid type"
  Verify method text sig key := method.isHMAC && decide (sig = tag method text key)
  decode s := decodeChars s.data

/-- A password check that accepts exactly the hash `"h:" ++ password`. -/
def bcrypt : Bcrypt where
  GenerateFromPassword password _ := .ok ("h:" ++ password)
  CompareHashAndPassword hash password := decide (hash = "h:" ++ password)

/-- A manager with a lifetime of two seconds for access tokens and five for refresh
tokens. -/
def manager : JWTManager :=
  { secretKey := "k", accessTokenDuration := 2 * Second, refreshTokenDuration := 5 * Second }

/-- An account row: active, not verified, not deleted, with both single-use tokens
outstanding until instant `100`. -/
def alice : User :=
  { zeroUser with
    ID := ⟨1⟩, Email := "a@x.com", PasswordHash := "h:pw", FullName := "Alice",
    Gender := "other", Active := true,
    EmailVerificationToken := some "tv", EmailVerificationExpiresAt := some 100,
    PasswordResetToken := some "tr", PasswordResetExpiresAt := some 100 }

/-- Claims of a token nobody issued: an access token for account `7`, never expiring. -/
def forged : Claims :=
  { UserID := ⟨7⟩, Email := "m@x.com", Type_ := "access",
    Registered :=
      { Issuer := "", Subject := uuidString ⟨7⟩, Audience := [], ExpiresAt := none,
        NotBefore := none, IssuedAt := none, ID := "" } }

/-- The access token the manager issues at instant `0` to account `1`. -/
def accessToken : String :=
  match manager.GenerateAccessToken lib 0 ⟨1⟩ "a@x.com" with
  | .ok tok => tok
  | .error _ => ""

/-- The refresh token the manager issues at instant `0` to account `1`. -/
def refreshToken : String :=
  match manager.GenerateRefreshToken lib 0 ⟨1⟩ "a@x.com" with
  | .ok tok => tok
  | .error _ => ""

/-- The claims written into `refreshToken`. -/
def refreshClaims : Claims :=
  { UserID := ⟨1⟩, Email := "a@x.com", Type_ := "refresh",
    Registered :=
      { Issuer := "", Subject := uuidString ⟨1⟩, Audience := [], ExpiresAt := some 5,
        NotBefore := none, IssuedAt := some 0, ID := "" } }

/-- A request context nothing has touched yet. -/
def ctx : Context := { Keys := [], response := none, aborted := false, next := false }

/-- The same account, deactivated. -/
def aliceInactive : User := { alice with Active := false }

/-- The same account, soft-deleted at instant `10`. -/
def aliceDeleted : User := { alice with DeletedAt := some 10 }

/-- The account `alice` after its verification token was consumed. -/
def aliceVerified : User :=
  { alice with
    Verified := true, EmailVerificationToken := none, EmailVerificationExpiresAt := none }

/-- The soft-deleted account after its verification token was consumed. -/
def aliceDeletedVerified : User :=
  { aliceDeleted with
    Verified := true, EmailVerificationToken := none, EmailVerificationExpiresAt := none }

/-- The soft-deleted account after its reset token was consumed with the hash `h:new`. -/
def aliceDeletedReset : User :=
  { aliceDeleted with
    PasswordHash := "h:new", PasswordResetToken := none, PasswordResetExpiresAt := none }

/-- A second account, holding another verification token. -/
def bob : User :=
  { alice with
    ID := ⟨2⟩, Email := "b@x.com", EmailVerificationToken := some "other" }

/-- Days of a month of the Gregorian calendar. -/
def daysIn (year month : Nat) : Nat :=
  if month = 2 then
    if year % 4 = 0 ∧ (year % 100 ≠ 0 ∨ year % 400 = 0) then 29 else 28
  else if month = 4 ∨ month = 6 ∨ month = 9 ∨ month = 11 then 30
  else 31

/-- Days from the first of January 1970 to a date of the Gregorian calendar. -/
def daysFromCivil (year month day : Int) : Int :=
  let y := if month ≤ 2 then year - 1 else year
  let era := y / 400
  let yoe := y - era * 400
  let doy := (153 * (if 2 < month then month - 3 else month + 9) + 2) / 5 + day - 1
  let doe := yoe * 365 + yoe / 4 - yoe / 100 + doy
  era * 146097 + doe - 719468

/-- A parser of dates written `YYYY-MM-DD`: four, two and two digits between dashes,
a month from 1 to 12 and a day of that month; the instant is midnight UTC. -/
def parseDate (s : String) : Option Int :=
  match s.data with
  | [y1, y2, y3, y4, a, m1, m2, b, d1, d2] =>
    if a = '-' ∧ b = '-' then
      match parseDecimal [y1, y2, y3, y4], parseDecimal [m1, m2], parseDecimal [d1, d2] with
      | some y, some mo, some d =>
        if 1 ≤ mo ∧ mo ≤ 12 ∧ 1 ≤ d ∧ d ≤ daysIn y mo then
          some (daysFromCivil y mo d * 24 * Hour)
        else none
      | _, _, _ => none
    else none
  | _ => none

/-- A register request with a well-formed date of birth. -/
def request : RegisterRequest :=
  { Email := "c@x.com", Password := "Password123!", FullName := "Carol",
    DateOfBirth := "1995-06-15", Gender := "female" }

/-- The same request with a date that is not of the form `YYYY-MM-DD`. -/
def requestBadDate : RegisterRequest := { request with DateOfBirth := "15/06/1995" }

/-- Two random bytes, standing for the 32 of a real read. -/
def rand : Except String (List Nat) := .ok [171, 7]

/-- An environment that sets `ENVIRONMENT` to `production` and nothing else. -/
def envProduction : Environ := fun key => if key = "ENVIRONMENT" then "production" else ""

/-- A connection that fails every statement. -/
def broken : DB := { users := [], fault := some "driver: bad connection" }

/-- A password check that, like bcrypt, refuses to hash more than 72 bytes, and
otherwise behaves as `bcrypt`. -/
def bcrypt72 : Bcrypt where
  GenerateFromPassword password _ :=
    if 72 < password.utf8ByteSize then .error "bcrypt: password length exceeds 72 bytes"
    else .ok ("h:" ++ password)
  CompareHashAndPassword hash password := decide (hash = "h:" ++ password)

/-- A password of 73 bytes. -/
def longPassword : String := String.mk (List.replicate 73 'a')

/-- The request with the malformed date and the password of 73 bytes. -/
def requestBadDateLong : RegisterRequest := { requestBadDate with Password := longPassword }

end Ref

/-! ## The reference instance obeys the library laws -/

namespace Ref

theorem decStr_encStr (s r : List Char) : decStr (encStr s ++ r) = some (s, r) := by
  induction s with
  | nil => cases r <;> simp [encStr, decStr]
  | cons c cs ih =>
    have h : decStr ('x' :: c :: (encStr cs ++ r)) = some (c :: cs, r) := by
      rw [decStr]
      simp [ih]
    simpa [encStr] using h

theorem decNat_encNat (n : Nat) (r : List Char) : decNat (encNat n ++ r) = some (n, r) := by
  induction n with
  | zero => simp [encNat, decNat]
  | succ k ih =>
    have h : decNat ('i' :: (encNat k ++ r)) = some (k + 1, r) := by
      rw [decNat]
      simp [ih]
    simpa [encNat] using h

theorem decOptInt_encOptInt (v : Option Int) (r : List Char) :
    decOptInt (encOptInt v ++ r) = some (v, r) := by
  rcases v with _ | (k | k)
  · simp [encOptInt, decOptInt]
  · simp [encOptInt, decOptInt, decNat_encNat]
  · simp [encOptInt, decOptInt, decNat_encNat]

theorem decStrs_encStrs (l : List String) (r : List Char) :
    decStrs l.length (encStrs l ++ r) = some (l, r) := by
  induction l with
  | nil => simp [encStrs, decStrs]
  | cons a as ih =>
    simp [encStrs, decStrs, List.append_assoc, decStr_encStr, ih]

theorem decClaims_encClaims (c : Claims) (r : List Char) :
    decClaims (encClaims c ++ r) = some (c, r) := by
  simp [encClaims, decClaims, List.append_assoc, decStr_encStr, decNat_encNat,
    decOptInt_encOptInt, decStrs_encStrs]

theorem decodeChars_signingChars (alg : String) (c : Claims) (sig : String) :
    decodeChars (signingChars alg c ++ ('.' :: encStr sig.data))
      = some ⟨alg, c, String.mk (signingChars alg c), sig⟩ := by
  have h := decStr_encStr sig.data []
  simp only [List.append_nil] at h
  simp [decodeChars, signingChars, List.append_assoc, decStr_encStr, decClaims_encClaims, h]

theorem lib_lawful : lib.Lawful where
  sign_verify text key := ⟨tag .HS256 text key, by simp [lib, SigningMethod.isHMAC]⟩
  decode_encode alg claims sig := by
    have h := decodeChars_signingChars alg claims sig
    simpa [lib, String.data_append] using h

end Ref

/-! ## Lookups -/

theorem GetByEmail_absent (db : DB) (email : String)
    (h : ∀ u ∈ db.users, u.Email = email → u.DeletedAt ≠ none) :
    ∃ x e, userRepository.GetByEmail db email = (x, some e) := by
  unfold userRepository.GetByEmail
  cases hf : db.fault with
  | some e => exact ⟨_, e, rfl⟩
  | none =>
    have hnone : db.users.find? (fun u => decide (u.Email = email) && u.DeletedAt.isNone)
        = none := by
      rw [List.find?_eq_none]
      intro u hu
      have := h u hu
      cases hd : u.DeletedAt <;> simp_all
    simp only [hnone]
    exact ⟨_, _, rfl⟩

theorem GetByEmail_found (db : DB) (email : String) (user : User)
    (h : userRepository.GetByEmail db email = (some user, none)) :
    ∃ row ∈ db.users, row.Email = email ∧ row.DeletedAt = none ∧ user = scanUser row := by
  unfold userRepository.GetByEmail at h
  cases hf : db.fault with
  | some e => simp [hf] at h
  | none =>
    simp only [hf] at h
    cases hfind : db.users.find? (fun u => decide (u.Email = email) && u.DeletedAt.isNone) with
    | none => simp [hfind] at h
    | some row =>
      simp only [hfind, Prod.mk.injEq, Option.some.injEq, and_true] at h
      have hp := List.find?_some hfind
      have hm := List.mem_of_find?_eq_some hfind
      simp only [Bool.and_eq_true, decide_eq_true_eq, Option.isNone_iff_eq_none] at hp
      exact ⟨row, hm, hp.1, hp.2, h.symm⟩

theorem GetByEmail_present (db : DB) (email : String) (hf : db.fault = none)
    (h : ∃ u ∈ db.users, u.Email = email ∧ u.DeletedAt = none) :
    ∃ user, userRepository.GetByEmail db email = (some user, none) := by
  unfold userRepository.GetByEmail
  simp only [hf]
  cases hfind : db.users.find? (fun u => decide (u.Email = email) && u.DeletedAt.isNone) with
  | none =>
    rw [List.find?_eq_none] at hfind
    obtain ⟨u, hu, he, hd⟩ := h
    have := hfind u hu
    simp [he, hd] at this
  | some row => exact ⟨_, rfl⟩

/-! ## Login -/

theorem Login_of_lookup_error (bc : Bcrypt) (lib : JWTLib) (m : JWTManager) (db : DB)
    (now : Int) (req : LoginRequest) (x : Option User) (e : String)
    (h : userRepository.GetByEmail db req.Email = (x, some e)) :
    authService.Login bc lib m db now req = (.error "invalid credentials", db) := by
  unfold authService.Login
  rw [h]
  cases x <;> rfl

theorem Login_of_mismatch (bc : Bcrypt) (lib : JWTLib) (m : JWTManager) (db : DB)
    (now : Int) (req : LoginRequest) (user : User)
    (h : userRepository.GetByEmail db req.Email = (some user, none))
    (hc : bc.CompareHashAndPassword user.PasswordHash req.Password = false) :
    authService.Login bc lib m db now req = (.error "invalid credentials", db) := by
  unfold authService.Login
  rw [h]
  simp [hc]

theorem Login_of_inactive (bc : Bcrypt) (lib : JWTLib) (m : JWTManager) (db : DB)
    (now : Int) (req : LoginRequest) (user : User)
    (h : userRepository.GetByEmail db req.Email = (some user, none))
    (hc : bc.CompareHashAndPassword user.PasswordHash req.Password = true)
    (ha : user.Active = false) :
    authService.Login bc lib m db now req = (.error "account is inactive", db) := by
  unfold authService.Login
  rw [h]
  simp [hc, ha]

/-- Claim C1. Login answers an email that no live account has, and an email whose
account does not accept the password, with the same failure: the error
`invalid credentials`, no response value, and an untouched store. -/
theorem login_invalid_credentials_uniform (bc : Bcrypt) (lib : JWTLib) (m : JWTManager)
    (db : DB) (now : Int) (absent present : LoginRequest)
    (hAbsent : ∀ u ∈ db.users, u.Email = absent.Email → u.DeletedAt ≠ none)
    (hPresent : ∃ u ∈ db.users, u.Email = present.Email ∧ u.DeletedAt = none)
    (hMismatch : ∀ u ∈ db.users, u.Email = present.Email → u.DeletedAt = none →
      bc.CompareHashAndPassword u.PasswordHash present.Password = false) :
    authService.Login bc lib m db now absent = (.error "invalid credentials", db)
    ∧ authService.Login bc lib m db now present = (.error "invalid credentials", db)
    ∧ authService.Login bc lib m db now absent = authService.Login bc lib m db now present := by
  have hA : authService.Login bc lib m db now absent = (.error "invalid credentials", db) := by
    obtain ⟨x, e, hx⟩ := GetByEmail_absent db absent.Email hAbsent
    exact Login_of_lookup_error bc lib m db now absent x e hx
  have hB : authService.Login bc lib m db now present = (.error "invalid credentials", db) := by
    rcases hg : userRepository.GetByEmail db present.Email with ⟨x, e⟩
    cases e with
    | some e => exact Login_of_lookup_error bc lib m db now present x e hg
    | none =>
      cases x with
      | none =>
        exfalso
        obtain ⟨u, hu, he, hd⟩ := hPresent
        cases hf : db.fault with
        | some e => simp [userRepository.GetByEmail, hf] at hg
        | none =>
          obtain ⟨user, huser⟩ := GetByEmail_present db present.Email hf ⟨u, hu, he, hd⟩
          rw [huser] at hg
          simp at hg
      | some user =>
        obtain ⟨row, hrow, he, hd, hs⟩ := GetByEmail_found db present.Email user hg
        have hc := hMismatch row hrow he hd
        have hph : user.PasswordHash = row.PasswordHash := by rw [hs]; rfl
        exact Login_of_mismatch bc lib m db now present user hg (by rw [hph]; exact hc)
  exact ⟨hA, hB, hA.trans hB.symm⟩

/-- The instance of C1 on a store holding one account: an unknown email and a wrong
password for the known email fail alike. -/
theorem login_invalid_credentials_uniform_witness :
    authService.Login Ref.bcrypt Ref.lib Ref.manager ⟨[Ref.alice], none⟩ 0 ⟨"b@x.com", "pw"⟩
      = (.error "invalid credentials", ⟨[Ref.alice], none⟩)
    ∧ authService.Login Ref.bcrypt Ref.lib Ref.manager ⟨[Ref.alice], none⟩ 0 ⟨"a@x.com", "bad"⟩
      = (.error "invalid credentials", ⟨[Ref.alice], none⟩) :=
  have h := login_invalid_credentials_uniform Ref.bcrypt Ref.lib Ref.manager
    ⟨[Ref.alice], none⟩ 0 ⟨"b@x.com", "pw"⟩ ⟨"a@x.com", "bad"⟩
    (by decide) (by decide) (by decide)
  ⟨h.1, h.2.1⟩

/-- Claim C2, as the code has it. On an account with `active = false` the password is
checked first: a matching password fails with `account is inactive`, any other
password fails with `invalid credentials`; neither changes the store. -/
theorem login_inactive_after_password_check (bc : Bcrypt) (lib : JWTLib) (m : JWTManager)
    (db : DB) (now : Int) (req : LoginRequest) (user : User)
    (hget : userRepository.GetByEmail db req.Email = (some user, none))
    (hinactive : user.Active = false) :
    (bc.CompareHashAndPassword user.PasswordHash req.Password = true →
      authService.Login bc lib m db now req = (.error "account is inactive", db))
    ∧ (bc.CompareHashAndPassword user.PasswordHash req.Password = false →
      authService.Login bc lib m db now req = (.error "invalid credentials", db)) :=
  ⟨fun hc => Login_of_inactive bc lib m db now req user hget hc hinactive,
   fun hc => Login_of_mismatch bc lib m db now req user hget hc⟩

/-- The instance of the amended C2 on a store holding one deactivated account. -/
theorem login_inactive_after_password_check_witness :
    authService.Login Ref.bcrypt Ref.lib Ref.manager ⟨[Ref.aliceInactive], none⟩ 0
      ⟨"a@x.com", "pw"⟩ = (.error "account is inactive", ⟨[Ref.aliceInactive], none⟩) :=
  (login_inactive_after_password_check Ref.bcrypt Ref.lib Ref.manager
    ⟨[Ref.aliceInactive], none⟩ 0 ⟨"a@x.com", "pw"⟩ (scanUser Ref.aliceInactive)
    (by decide) (by decide)).1 (by decide)

/-- Claim C2 fails as stated. The one deactivated account of the store has password
`pw`; a login with `pw` and a login with `bad` get different errors, so the answer
tells whether the password was right. -/
theorem login_inactive_reveals_password :
    Ref.aliceInactive.Active = false
    ∧ Ref.bcrypt.CompareHashAndPassword Ref.aliceInactive.PasswordHash "pw" = true
    ∧ Ref.bcrypt.CompareHashAndPassword Ref.aliceInactive.PasswordHash "bad" = false
    ∧ (authService.Login Ref.bcrypt Ref.lib Ref.manager ⟨[Ref.aliceInactive], none⟩ 0
        ⟨"a@x.com", "pw"⟩).1 = .error "account is inactive"
    ∧ (authService.Login Ref.bcrypt Ref.lib Ref.manager ⟨[Ref.aliceInactive], none⟩ 0
        ⟨"a@x.com", "bad"⟩).1 = .error "invalid credentials"
    ∧ authService.Login Ref.bcrypt Ref.lib Ref.manager ⟨[Ref.aliceInactive], none⟩ 0
        ⟨"a@x.com", "pw"⟩
      ≠ authService.Login Ref.bcrypt Ref.lib Ref.manager ⟨[Ref.aliceInactive], none⟩ 0
        ⟨"a@x.com", "bad"⟩ := by
  have h1 : authService.Login Ref.bcrypt Ref.lib Ref.manager ⟨[Ref.aliceInactive], none⟩ 0
      ⟨"a@x.com", "pw"⟩ = (.error "account is inactive", ⟨[Ref.aliceInactive], none⟩) :=
    Login_of_inactive _ _ _ _ _ _ (scanUser Ref.aliceInactive) (by decide) (by decide)
      (by decide)
  have h2 : authService.Login Ref.bcrypt Ref.lib Ref.manager ⟨[Ref.aliceInactive], none⟩ 0
      ⟨"a@x.com", "bad"⟩ = (.error "invalid credentials", ⟨[Ref.aliceInactive], none⟩) :=
    Login_of_mismatch _ _ _ _ _ _ (scanUser Ref.aliceInactive) (by decide) (by decide)
  refine ⟨by decide, by decide, by decide, by rw [h1], by rw [h2], ?_⟩
  rw [h1, h2]
  intro h
  have h3 := congrArg Prod.fst h
  simp at h3

/-! ## Signed tokens -/

theorem GetSigningMethod_alg (alg : String) (method : SigningMethod)
    (h : GetSigningMethod alg = some method) : method.Alg = alg := by
  unfold GetSigningMethod at h
  have hp := List.find?_some h
  simpa using hp

theorem GetSigningMethod_hmac (alg : String) (method : SigningMethod)
    (h : GetSigningMethod alg = some method) (hm : method.isHMAC = true) :
    alg ∈ ["HS256", "HS384", "HS512"] := by
  have ha := GetSigningMethod_alg alg method h
  subst ha
  cases method <;> simp [SigningMethod.isHMAC, SigningMethod.Alg] at hm ⊢

theorem GetSigningMethod_HS256 : GetSigningMethod "HS256" = some .HS256 := by decide

theorem ValidateToken_ok_iff (lib : JWTLib) (m : JWTManager) (now : Int) (s : String)
    (claims : Claims) :
    m.ValidateToken lib now s = .ok claims ↔
      ∃ seg method, lib.decode s = some seg ∧ GetSigningMethod seg.alg = some method
        ∧ method.isHMAC = true
        ∧ lib.Verify method seg.text seg.signature m.secretKey = true
        ∧ Validate now seg.claims = none ∧ claims = seg.claims := by
  cases hd : lib.decode s with
  | none =>
    simp [JWTManager.ValidateToken, ParseWithClaims, ParseUnverified, hd]
  | some seg =>
    cases hg : GetSigningMethod seg.alg with
    | none =>
      simp [JWTManager.ValidateToken, ParseWithClaims, ParseUnverified, hd, hg]
    | some method =>
      cases hh : method.isHMAC with
      | false =>
        simp [JWTManager.ValidateToken, ParseWithClaims, ParseUnverified,
          JWTManager.keyFunc, hd, hg, hh]
      | true =>
        cases hv : lib.Verify method seg.text seg.signature m.secretKey with
        | false =>
          simp [JWTManager.ValidateToken, ParseWithClaims, ParseUnverified,
            JWTManager.keyFunc, hd, hg, hh, hv]
        | true =>
          cases hval : Validate now seg.claims with
          | some e =>
            simp [JWTManager.ValidateToken, ParseWithClaims, ParseUnverified,
              JWTManager.keyFunc, hd, hg, hh, hv, hval]
          | none =>
            simp only [JWTManager.ValidateToken, ParseWithClaims, ParseUnverified,
              JWTManager.keyFunc, hd, hg, hh, if_true, hv, hval, Except.ok.injEq]
            constructor
            · intro h
              exact ⟨seg, method, rfl, hg, hh, hv, hval, h.symm⟩
            · rintro ⟨seg1, method1, h1, _, _, _, _, h6⟩
              cases h1
              exact h6.symm

theorem ValidateToken_signed (lib : JWTLib) (hl : lib.Lawful) (m : JWTManager)
    (claims : Claims) :
    ∃ tok, SignedString lib .HS256 claims m.secretKey = .ok tok
      ∧ ∀ now, Validate now claims = none → m.ValidateToken lib now tok = .ok claims := by
  obtain ⟨sig, hs, hver⟩ := hl.sign_verify (lib.SigningString "HS256" claims) m.secretKey
  have hdec := hl.decode_encode "HS256" claims sig
  refine ⟨lib.SigningString "HS256" claims ++ "." ++ lib.EncodeSegment sig, ?_, ?_⟩
  · simp [SignedString, SigningMethod.Alg, hs]
  · intro now hv
    rw [ValidateToken_ok_iff]
    exact ⟨_, .HS256, hdec, GetSigningMethod_HS256, rfl, hver, hv, rfl⟩

theorem Validate_of_exp (now exp : Int) (claims : Claims)
    (he : claims.Registered.ExpiresAt = some exp) (hn : claims.Registered.NotBefore = none)
    (h : now < exp * Second) : Validate now claims = none := by
  simp [Validate, he, hn, h]

/-- Claim C3. For a lawful token library, what `GenerateAccessToken` returns is a
token, and `ValidateToken` at any instant before the expiry written into it returns
claims with the same account id, the id in text form as subject, the same email and
type `access`; likewise for `GenerateRefreshToken` with type `refresh`. -/
theorem validate_generated_roundtrip (lib : JWTLib) (hl : lib.Lawful) (m : JWTManager)
    (issued : Int) (id : UUID) (email : String) :
    (∃ tok, m.GenerateAccessToken lib issued id email = .ok tok
      ∧ ∀ now, now < NewNumericDate (issued + m.accessTokenDuration) * Second →
        ∃ c, m.ValidateToken lib now tok = .ok c ∧ c.UserID = id
          ∧ c.Registered.Subject = uuidString id ∧ c.Email = email ∧ c.Type_ = "access")
    ∧ (∃ tok, m.GenerateRefreshToken lib issued id email = .ok tok
      ∧ ∀ now, now < NewNumericDate (issued + m.refreshTokenDuration) * Second →
        ∃ c, m.ValidateToken lib now tok = .ok c ∧ c.UserID = id
          ∧ c.Registered.Subject = uuidString id ∧ c.Email = email ∧ c.Type_ = "refresh") := by
  constructor
  · obtain ⟨tok, hs, hv⟩ := ValidateToken_signed lib hl m
      { UserID := id, Email := email, Type_ := "access",
        Registered :=
          { Issuer := "", Subject := uuidString id, Audience := [],
            ExpiresAt := some (NewNumericDate (issued + m.accessTokenDuration)),
            NotBefore := none, IssuedAt := some (NewNumericDate issued), ID := "" } }
    exact ⟨tok, hs, fun now hnow =>
      ⟨_, hv now (Validate_of_exp now _ _ rfl rfl hnow), rfl, rfl, rfl, rfl⟩⟩
  · obtain ⟨tok, hs, hv⟩ := ValidateToken_signed lib hl m
      { UserID := id, Email := email, Type_ := "refresh",
        Registered :=
          { Issuer := "", Subject := uuidString id, Audience := [],
            ExpiresAt := some (NewNumericDate (issued + m.refreshTokenDuration)),
            NotBefore := none, IssuedAt := some (NewNumericDate issued), ID := "" } }
    exact ⟨tok, hs, fun now hnow =>
      ⟨_, hv now (Validate_of_exp now _ _ rfl rfl hnow), rfl, rfl, rfl, rfl⟩⟩

/-- The instance of C3 for the reference library: a token issued at instant `0` with a
lifetime of two seconds validates one second later. -/
theorem validate_generated_roundtrip_witness :
    ∃ tok c, Ref.manager.GenerateAccessToken Ref.lib 0 ⟨1⟩ "a@x.com" = .ok tok
      ∧ Ref.manager.ValidateToken Ref.lib Second tok = .ok c
      ∧ c.UserID = ⟨1⟩ ∧ c.Email = "a@x.com" ∧ c.Type_ = "access" := by
  obtain ⟨⟨tok, hg, hv⟩, _⟩ :=
    validate_generated_roundtrip Ref.lib Ref.lib_lawful Ref.manager 0 ⟨1⟩ "a@x.com"
  obtain ⟨c, hc, hid, _, hem, hty⟩ := hv Second (by decide)
  exact ⟨tok, c, hg, hc, hid, hem, hty⟩

theorem SignedString_decode (lib : JWTLib) (hl : lib.Lawful) (method : SigningMethod)
    (claims : Claims) (key tok : String) (h : SignedString lib method claims key = .ok tok) :
    ∃ seg, lib.decode tok = some seg ∧ seg.alg = method.Alg ∧ seg.claims = claims := by
  unfold SignedString at h
  cases hs : lib.Sign method (lib.SigningString method.Alg claims) key with
  | error e => simp [hs] at h
  | ok sig =>
    simp only [hs, Except.ok.injEq] at h
    subst h
    exact ⟨_, hl.decode_encode method.Alg claims sig, rfl, rfl⟩

/-- Claim C4. A token string that does not decode to a header naming one of the HMAC
algorithms is refused by `ValidateToken` with an error, whatever its claims and
signature; and the key function returns the secret for HMAC methods only. -/
theorem validate_rejects_non_hmac (lib : JWTLib) (m : JWTManager) (now : Int) (s : String)
    (h : ∀ seg, lib.decode s = some seg → seg.alg ∉ ["HS256", "HS384", "HS512"]) :
    (∃ e, m.ValidateToken lib now s = .error e)
    ∧ (∀ token key, m.keyFunc token = .ok key → token.Method.isHMAC = true) := by
  constructor
  · cases hr : m.ValidateToken lib now s with
    | error e => exact ⟨e, rfl⟩
    | ok c =>
      exfalso
      obtain ⟨seg, method, hd, hg, hh, _⟩ := (ValidateToken_ok_iff lib m now s c).1 hr
      exact h seg hd (GetSigningMethod_hmac seg.alg method hg hh)
  · intro token key hk
    unfold JWTManager.keyFunc at hk
    by_cases hm : token.Method.isHMAC = true
    · exact hm
    · simp [hm] at hk

/-- The instance of C4 for the reference library: a token whose header names the
unsigned algorithm `none`, with claims of type `access` that never expire and an empty
signature, is refused. -/
theorem validate_rejects_non_hmac_witness :
    ∃ e, Ref.manager.ValidateToken Ref.lib 0
      (Ref.lib.SigningString "none" Ref.forged ++ "." ++ Ref.lib.EncodeSegment "") = .error e :=
  (validate_rejects_non_hmac Ref.lib Ref.manager 0
    (Ref.lib.SigningString "none" Ref.forged ++ "." ++ Ref.lib.EncodeSegment "")
    (fun seg hseg => by
      rw [Ref.lib_lawful.decode_encode "none" Ref.forged ""] at hseg
      cases hseg
      decide)).1

/-! ## The request gate -/

theorem Split_two (h tok : String) (hs : Split h ' ' = ["Bearer", tok]) :
    h ≠ "" ∧ ¬ ((Split h ' ').length ≠ 2 ∨ (Split h ' ')[0]? ≠ some "Bearer")
      ∧ (Split h ' ').getD 1 "" = tok := by
  refine ⟨?_, ?_, ?_⟩
  · rintro rfl
    simp [Split, splitChars] at hs
  · simp [hs]
  · simp [hs]

theorem Split_shape (h : String)
    (hp : ¬ ((Split h ' ').length ≠ 2 ∨ (Split h ' ')[0]? ≠ some "Bearer")) :
    Split h ' ' = ["Bearer", (Split h ' ').getD 1 ""] := by
  rcases hsp : Split h ' ' with _ | ⟨a, _ | ⟨b, _ | ⟨d, l⟩⟩⟩ <;> simp_all

theorem RequireAuth_accept (lib : JWTLib) (m : JWTManager) (now : Int) (h : String)
    (c : Context) (tok : String) (claims : Claims)
    (hs : Split h ' ' = ["Bearer", tok]) (hv : m.ValidateToken lib now tok = .ok claims)
    (ht : claims.Type_ = "access") :
    AuthMiddleware.RequireAuth lib m now h c
      = ((c.Set "user_id" (.uuid claims.UserID)).Set "user_email" (.str claims.Email)).Next := by
  obtain ⟨h0, hp, hg⟩ := Split_two h tok hs
  unfold AuthMiddleware.RequireAuth
  rw [if_neg h0]
  simp only []
  rw [if_neg hp, hg, hv]
  simp [ht]

theorem RequireAuth_reject (lib : JWTLib) (m : JWTManager) (now : Int) (h : String)
    (c : Context)
    (hno : ¬ ∃ tok claims, Split h ' ' = ["Bearer", tok]
      ∧ m.ValidateToken lib now tok = .ok claims ∧ claims.Type_ = "access") :
    ∃ msg, AuthMiddleware.RequireAuth lib m now h c
      = (c.JSON StatusUnauthorized msg).Abort := by
  unfold AuthMiddleware.RequireAuth
  by_cases h0 : h = ""
  · rw [if_pos h0]
    exact ⟨_, rfl⟩
  · rw [if_neg h0]
    simp only []
    by_cases hp : (Split h ' ').length ≠ 2 ∨ (Split h ' ')[0]? ≠ some "Bearer"
    · rw [if_pos hp]
      exact ⟨_, rfl⟩
    · rw [if_neg hp]
      have hs := Split_shape h hp
      cases hv : m.ValidateToken lib now ((Split h ' ').getD 1 "") with
      | error e => exact ⟨_, rfl⟩
      | ok claims =>
        by_cases ht : claims.Type_ = "access"
        · exact absurd ⟨_, claims, hs, hv, ht⟩ hno
        · simp only [ne_eq, ht, not_false_eq_true, if_true]
          exact ⟨_, rfl⟩

/-- Claim C5. On a context whose remaining handlers have not run, the gate runs them
exactly when the header splits at spaces into `Bearer` and one more part, that part
validates, and its claims have type `access`; it then stores the claims' account id
under `user_id` and their email under `user_email`. In every other case it answers
401, aborts, leaves the stored values as they were and does not run the handlers. -/
theorem requireAuth_passes_iff (lib : JWTLib) (m : JWTManager) (now : Int) (h : String)
    (c : Context) (hfresh : c.next = false) :
    ((AuthMiddleware.RequireAuth lib m now h c).next = true ↔
      ∃ tok claims, Split h ' ' = ["Bearer", tok]
        ∧ m.ValidateToken lib now tok = .ok claims ∧ claims.Type_ = "access")
    ∧ (∀ tok claims, Split h ' ' = ["Bearer", tok] →
        m.ValidateToken lib now tok = .ok claims → claims.Type_ = "access" →
        (AuthMiddleware.RequireAuth lib m now h c).Get "user_id" = some (.uuid claims.UserID)
        ∧ (AuthMiddleware.RequireAuth lib m now h c).Get "user_email"
            = some (.str claims.Email)
        ∧ (AuthMiddleware.RequireAuth lib m now h c).response = c.response
        ∧ (AuthMiddleware.RequireAuth lib m now h c).aborted = c.aborted)
    ∧ ((¬ ∃ tok claims, Split h ' ' = ["Bearer", tok]
          ∧ m.ValidateToken lib now tok = .ok claims ∧ claims.Type_ = "access") →
        (∃ msg, (AuthMiddleware.RequireAuth lib m now h c).response
            = some (StatusUnauthorized, msg))
        ∧ (AuthMiddleware.RequireAuth lib m now h c).aborted = true
        ∧ (AuthMiddleware.RequireAuth lib m now h c).Keys = c.Keys
        ∧ (AuthMiddleware.RequireAuth lib m now h c).next = false) := by
  have hrej : (¬ ∃ tok claims, Split h ' ' = ["Bearer", tok]
          ∧ m.ValidateToken lib now tok = .ok claims ∧ claims.Type_ = "access") →
        (∃ msg, (AuthMiddleware.RequireAuth lib m now h c).response
            = some (StatusUnauthorized, msg))
        ∧ (AuthMiddleware.RequireAuth lib m now h c).aborted = true
        ∧ (AuthMiddleware.RequireAuth lib m now h c).Keys = c.Keys
        ∧ (AuthMiddleware.RequireAuth lib m now h c).next = false := by
    intro hno
    obtain ⟨msg, hmsg⟩ := RequireAuth_reject lib m now h c hno
    rw [hmsg]
    exact ⟨⟨msg, rfl⟩, rfl, rfl, hfresh⟩
  refine ⟨⟨?_, ?_⟩, ?_, hrej⟩
  · intro hnext
    by_contra hno
    rw [(hrej hno).2.2.2] at hnext
    exact Bool.false_ne_true hnext
  · rintro ⟨tok, claims, hs, hv, ht⟩
    rw [RequireAuth_accept lib m now h c tok claims hs hv ht]
    rfl
  · intro tok claims hs hv ht
    rw [RequireAuth_accept lib m now h c tok claims hs hv ht]
    refine ⟨?_, ?_, rfl, rfl⟩
    · simp [Context.Get, Context.Set, Context.Next, List.lookup]
    · simp [Context.Get, Context.Set, Context.Next, List.lookup]

/-- The instance of C5 for the reference library, one second after issue: the header
`Bearer` followed by the access token of account `1` is let through, the same header
with the refresh token is not. -/
theorem requireAuth_passes_iff_witness :
    (∃ tok claims, Split ("Bearer " ++ Ref.accessToken) ' ' = ["Bearer", tok]
      ∧ Ref.manager.ValidateToken Ref.lib Second tok = .ok claims ∧ claims.Type_ = "access")
    ∧ ¬ (∃ tok claims, Split ("Bearer " ++ Ref.refreshToken) ' ' = ["Bearer", tok]
      ∧ Ref.manager.ValidateToken Ref.lib Second tok = .ok claims
      ∧ claims.Type_ = "access") :=
  ⟨(requireAuth_passes_iff Ref.lib Ref.manager Second ("Bearer " ++ Ref.accessToken)
      Ref.ctx (by decide)).1.1 (by decide),
   fun hyes => absurd
    ((requireAuth_passes_iff Ref.lib Ref.manager Second ("Bearer " ++ Ref.refreshToken)
      Ref.ctx (by decide)).1.2 hyes) (by decide)⟩

/-! ## Refresh -/

theorem log2Fuel_spec (fuel n : Nat) (hn : n ≤ fuel) (h0 : 0 < n) :
    2 ^ log2Fuel fuel n ≤ n ∧ n < 2 ^ (log2Fuel fuel n + 1) := by
  induction fuel generalizing n with
  | zero => omega
  | succ f ih =>
    unfold log2Fuel
    by_cases h2 : 2 ≤ n
    · rw [if_pos h2]
      obtain ⟨ha, hb⟩ := ih (n / 2) (by omega) (by omega)
      rw [pow_succ] at hb ⊢
      rw [pow_succ]
      constructor <;> omega
    · rw [if_neg h2]
      have : n = 1 := by omega
      subst this
      simp

theorem floorLog2_spec (n : Nat) (h0 : 0 < n) :
    2 ^ floorLog2 n ≤ n ∧ n < 2 ^ (floorLog2 n + 1) :=
  log2Fuel_spec n n (Nat.le_refl n) h0

theorem roundHalfEven_one (n : Nat) : roundHalfEven n 1 = n := by
  simp [roundHalfEven, Nat.mod_one]

theorem ofRatio_whole (neg : Bool) (n : Nat) (h0 : 0 < n) (hlt : n < 2 ^ 53) :
    Float64.ofRatio neg n 1
      = { neg := neg, mant := n * 2 ^ (52 - floorLog2 n), exp := (floorLog2 n : Int) - 52 } := by
  obtain ⟨hlo, _⟩ := floorLog2_spec n h0
  have hlog : floorLog2 n < 53 := by
    by_contra hge
    have h53 : 2 ^ 53 ≤ 2 ^ floorLog2 n := Nat.pow_le_pow_right (by decide) (by omega)
    omega
  have h1 : floorLog2 1 = 0 := by decide
  have hn : n ≠ 0 := by omega
  have hreach : 1 * 2 ^ (((floorLog2 n : Nat) : Int) - ((0 : Nat) : Int)).toNat ≤ n := by
    simpa using hlo
  have he1 : (-((floorLog2 n : Int) - ((0 : Nat) : Int) - 52)).toNat = 52 - floorLog2 n := by
    omega
  have he2 : ((floorLog2 n : Int) - ((0 : Nat) : Int) - 52).toNat = 0 := by omega
  have hl : (0 : Int) ≤ (floorLog2 n : Int) - ((0 : Nat) : Int) := by omega
  unfold Float64.ofRatio
  simp only [hn, if_false, h1, hl, if_true, hreach, decide_True, he1, he2, pow_zero, mul_one,
    roundHalfEven_one]
  simp

theorem Seconds_whole (k : Int) (hk : k.natAbs < 2 ^ 53) :
    (Duration.Seconds (k * 1000000000)).toInt = k := by
  have ha : (k * 1000000000).natAbs = k.natAbs * 1000000000 := by
    rw [Int.natAbs_mul]
    rfl
  have hsec : k.natAbs * 1000000000 / 1000000000 = k.natAbs :=
    Nat.mul_div_cancel _ (by decide)
  have hnsec : k.natAbs * 1000000000 % 1000000000 = 0 := Nat.mul_mod_left _ _
  have hfrac : ∀ neg : Bool, Float64.ofRatio neg 0 1000000000
      = { neg := neg, mant := 0, exp := 0 } := by
    intro neg
    simp [Float64.ofRatio]
  unfold Duration.Seconds
  simp only [ha, hsec, hnsec, hfrac, neg_zero, Int.toNat_zero, pow_zero, mul_one, add_zero]
  by_cases h0 : k.natAbs = 0
  · have hk0 : k = 0 := Int.natAbs_eq_zero.1 h0
    subst hk0
    simp [Float64.ofRatio, Float64.toInt]
  · rw [ofRatio_whole _ k.natAbs (by omega) hk]
    have hlog : floorLog2 k.natAbs < 53 := by
      obtain ⟨hlo, _⟩ := floorLog2_spec k.natAbs (by omega)
      by_contra hge
      have h53 : 2 ^ 53 ≤ 2 ^ floorLog2 k.natAbs :=
        Nat.pow_le_pow_right (by decide) (by omega)
      omega
    have he1 : (-((floorLog2 k.natAbs : Int) - 52)).toNat = 52 - floorLog2 k.natAbs := by
      omega
    have he2 : ((floorLog2 k.natAbs : Int) - 52).toNat = 0 := by omega
    have hpos : 0 < 2 ^ (52 - floorLog2 k.natAbs) := Nat.pow_pos (by decide)
    unfold Float64.toInt
    simp only [he1, he2, pow_zero, mul_one, Nat.mul_div_cancel _ hpos]
    by_cases hneg : k * 1000000000 < 0
    · simp only [hneg, decide_True, if_true]
      omega
    · simp only [hneg, decide_False]
      simp only [Bool.false_eq_true, if_false]
      omega

theorem GetAccessTokenDuration_New (secretKey : String) (accessMinutes refreshDays : Int)
    (h0 : 0 ≤ accessMinutes) (h1 : accessMinutes * 60000000000 < 9223372036854775808) :
    (NewJWTManager secretKey accessMinutes refreshDays).GetAccessTokenDuration
      = accessMinutes * 60 := by
  have hw : wrapInt64 accessMinutes = accessMinutes := by unfold wrapInt64; omega
  have hw2 : wrapInt64 (accessMinutes * Minute) = accessMinutes * 60000000000 := by
    unfold wrapInt64 Minute Second; omega
  have hm : accessMinutes * 60000000000 = (accessMinutes * 60) * 1000000000 := by omega
  simp only [NewJWTManager, JWTManager.GetAccessTokenDuration, hw, hw2]
  rw [hm]
  exact Seconds_whole (accessMinutes * 60) (by omega)

theorem GetAccessTokenDuration_wrapped :
    (NewJWTManager "k" 706428043214602298 0).accessTokenDuration = 8741300740999999488
    ∧ (NewJWTManager "k" 706428043214602298 0).GetAccessTokenDuration = 8741300741 := by
  decide

/-- Claim C6. `RefreshToken` fails with `invalid refresh token` when `ValidateToken`
refuses the string, and with `invalid token type` when the claims are not of type
`refresh`; otherwise it returns the access token that `GenerateAccessToken` issues for
the account id and email of the claims (a token that validates, until its expiry, to
that id and email with type `access`), the refresh token it was given, the access
lifetime as `GetAccessTokenDuration` converts it to seconds, and `Bearer`. No output
of `GenerateAccessToken` is accepted. When the lifetime is a whole number `k` of
seconds, the converted lifetime is `k`. -/
theorem refreshToken_cases (lib : JWTLib) (hl : lib.Lawful) (m : JWTManager) (now : Int)
    (r : String) :
    (∀ e, m.ValidateToken lib now r = .error e →
      authService.RefreshToken lib m now r = .error "invalid refresh token")
    ∧ (∀ c, m.ValidateToken lib now r = .ok c → c.Type_ ≠ "refresh" →
      authService.RefreshToken lib m now r = .error "invalid token type")
    ∧ (∀ c, m.ValidateToken lib now r = .ok c → c.Type_ = "refresh" →
      ∃ accessToken, m.GenerateAccessToken lib now c.UserID c.Email = .ok accessToken
        ∧ authService.RefreshToken lib m now r
          = .ok { AccessToken := accessToken, RefreshToken := r,
                  ExpiresIn := m.GetAccessTokenDuration, TokenType := "Bearer" }
        ∧ ∀ later, later < NewNumericDate (now + m.accessTokenDuration) * Second →
          ∃ c2, m.ValidateToken lib later accessToken = .ok c2 ∧ c2.UserID = c.UserID
            ∧ c2.Email = c.Email ∧ c2.Type_ = "access")
    ∧ (∀ issued id email tok, m.GenerateAccessToken lib issued id email = .ok tok →
      authService.RefreshToken lib m now tok = .error "invalid refresh token"
      ∨ authService.RefreshToken lib m now tok = .error "invalid token type")
    ∧ (∀ k : Int, k.natAbs < 2 ^ 53 → m.accessTokenDuration = k * Second →
      m.GetAccessTokenDuration = k) := by
  have htype : ∀ (s : String) (c : Claims), m.ValidateToken lib now s = .ok c →
      c.Type_ ≠ "refresh" →
      authService.RefreshToken lib m now s = .error "invalid token type" := by
    intro s c hv ht
    unfold authService.RefreshToken
    rw [hv]
    simp [ht]
  have hinv : ∀ (s : String) (e : String), m.ValidateToken lib now s = .error e →
      authService.RefreshToken lib m now s = .error "invalid refresh token" := by
    intro s e hv
    unfold authService.RefreshToken
    rw [hv]
  refine ⟨hinv r, htype r, ?_, ?_, fun k hk hd => by
    unfold JWTManager.GetAccessTokenDuration
    rw [hd]
    exact Seconds_whole k hk⟩
  · intro c hv ht
    obtain ⟨tok, hs, hvalid⟩ := ValidateToken_signed lib hl m
      { UserID := c.UserID, Email := c.Email, Type_ := "access",
        Registered :=
          { Issuer := "", Subject := uuidString c.UserID, Audience := [],
            ExpiresAt := some (NewNumericDate (now + m.accessTokenDuration)),
            NotBefore := none, IssuedAt := some (NewNumericDate now), ID := "" } }
    have hg : m.GenerateAccessToken lib now c.UserID c.Email = .ok tok := hs
    refine ⟨tok, hg, ?_, fun later hlater =>
      ⟨_, hvalid later (Validate_of_exp later _ _ rfl rfl hlater), rfl, rfl, rfl⟩⟩
    unfold authService.RefreshToken
    rw [hv]
    simp [ht, hg]
  · intro issued id email tok hg
    cases hv : m.ValidateToken lib now tok with
    | error e => exact Or.inl (hinv tok e hv)
    | ok c =>
      right
      apply htype tok c hv
      obtain ⟨seg, hd, _, hc⟩ := SignedString_decode lib hl .HS256 _ m.secretKey tok hg
      obtain ⟨seg1, _, hd1, _, _, _, _, hc1⟩ := (ValidateToken_ok_iff lib m now tok c).1 hv
      rw [hd] at hd1
      cases hd1
      rw [hc1, hc]
      simp

/-- The instance of C6 for the reference library: one second after issue the refresh
token of account `1` is exchanged for a fresh access token, and comes back as it was
with a lifetime of two seconds. -/
theorem refreshToken_cases_witness :
    ∃ accessToken, authService.RefreshToken Ref.lib Ref.manager Second Ref.refreshToken
      = .ok { AccessToken := accessToken, RefreshToken := Ref.refreshToken,
              ExpiresIn := 2, TokenType := "Bearer" } := by
  obtain ⟨tok, _, h, _⟩ := (refreshToken_cases Ref.lib Ref.lib_lawful Ref.manager Second
    Ref.refreshToken).2.2.1 Ref.refreshClaims (by rfl) (by decide)
  exact ⟨tok, h⟩

/-! ## Single-use tokens -/

theorem verifyEmailMatches_iff (now : Int) (t : String) (u : User) :
    verifyEmailMatches now t u = true ↔
      u.EmailVerificationToken = some t
        ∧ ∃ exp, u.EmailVerificationExpiresAt = some exp ∧ now < exp := by
  unfold verifyEmailMatches
  cases u.EmailVerificationExpiresAt <;> simp

theorem resetPasswordMatches_iff (now : Int) (t : String) (u : User) :
    resetPasswordMatches now t u = true ↔
      u.PasswordResetToken = some t
        ∧ ∃ exp, u.PasswordResetExpiresAt = some exp ∧ now < exp := by
  unfold resetPasswordMatches
  cases u.PasswordResetExpiresAt <;> simp

theorem map_ite_of_none {α : Type} (p : α → Bool) (f : α → α) (l : List α)
    (h : ∀ u ∈ l, p u = false) : l.map (fun u => if p u then f u else u) = l := by
  induction l with
  | nil => rfl
  | cons a as ih =>
    have ha := h a (List.mem_cons_self a as)
    have has := ih (fun u hu => h u (List.mem_cons_of_mem a hu))
    simp [ha, has]

theorem filter_length_of_none {α : Type} (p : α → Bool) (l : List α)
    (h : ∀ u ∈ l, p u = false) : (l.filter p).length = 0 := by
  rw [List.length_eq_zero, List.filter_eq_nil_iff]
  intro u hu
  simp [h u hu]

theorem VerifyEmail_of_none (users : List User) (now : Int) (t : String)
    (h : ∀ u ∈ users, verifyEmailMatches now t u = false) :
    userRepository.VerifyEmail ⟨users, none⟩ now t
      = (some "invalid or expired token", ⟨users, none⟩) := by
  simp [userRepository.VerifyEmail, map_ite_of_none _ _ users h,
    filter_length_of_none _ users h]

theorem ResetPassword_of_none (users : List User) (now : Int) (t hash : String)
    (h : ∀ u ∈ users, resetPasswordMatches now t u = false) :
    userRepository.ResetPassword ⟨users, none⟩ now t hash
      = (some "invalid or expired token", ⟨users, none⟩) := by
  simp [userRepository.ResetPassword, map_ite_of_none _ _ users h,
    filter_length_of_none _ users h]

theorem VerifyEmail_ok (db : DB) (now : Int) (t : String)
    (hok : (userRepository.VerifyEmail db now t).1 = none) :
    db.fault = none
    ∧ (∃ u ∈ db.users, verifyEmailMatches now t u = true)
    ∧ (userRepository.VerifyEmail db now t).2
        = ⟨db.users.map (fun u => if verifyEmailMatches now t u then verifyEmailSet u else u),
           none⟩ := by
  unfold userRepository.VerifyEmail at hok ⊢
  cases hf : db.fault with
  | some e => simp [hf] at hok
  | none =>
    simp only [hf] at hok ⊢
    by_cases hz : (db.users.filter (verifyEmailMatches now t)).length = 0
    · simp [hz] at hok
    · refine ⟨trivial, ?_, by simp [hz]⟩
      have hne : db.users.filter (verifyEmailMatches now t) ≠ [] := by
        intro h
        exact hz (by rw [h]; rfl)
      obtain ⟨u, hu⟩ := List.exists_mem_of_ne_nil _ hne
      rw [List.mem_filter] at hu
      exact ⟨u, hu.1, hu.2⟩

/-- Claim C7. After a successful `VerifyEmail` with token `t`, a second call with `t`
on the resulting store, at the same or any later instant, fails with
`invalid or expired token` and returns the store as it found it. -/
theorem verifyEmail_single_use (db : DB) (now later : Int) (t : String)
    (hok : (authService.VerifyEmail db now t).1 = none) (hlater : now ≤ later) :
    authService.VerifyEmail (authService.VerifyEmail db now t).2 later t
      = (some "invalid or expired token", (authService.VerifyEmail db now t).2) := by
  unfold authService.VerifyEmail at hok ⊢
  obtain ⟨_, _, hdb⟩ := VerifyEmail_ok db now t hok
  rw [hdb]
  apply VerifyEmail_of_none
  intro u hu
  rw [List.mem_map] at hu
  obtain ⟨v, _, hv⟩ := hu
  by_cases hm : verifyEmailMatches now t v = true
  · rw [if_pos hm] at hv
    subst hv
    simp [verifyEmailMatches, verifyEmailSet]
  · rw [if_neg hm] at hv
    subst hv
    rw [Bool.eq_false_iff]
    intro hl
    apply hm
    rw [verifyEmailMatches_iff] at hl ⊢
    obtain ⟨h1, exp, h2, h3⟩ := hl
    exact ⟨h1, exp, h2, by omega⟩

/-- The instance of C7 on a store holding one account whose verification token `tv`
runs until instant `100`: verified at `50`, refused at `60`. -/
theorem verifyEmail_single_use_witness :
    (authService.VerifyEmail ⟨[Ref.alice], none⟩ 50 "tv").1 = none
    ∧ (authService.VerifyEmail (authService.VerifyEmail ⟨[Ref.alice], none⟩ 50 "tv").2 60
        "tv").1 = some "invalid or expired token" :=
  ⟨by decide, by
    rw [verifyEmail_single_use ⟨[Ref.alice], none⟩ 50 60 "tv" (by decide) (by decide)]⟩

/-- Claim C8. When no account holds `t` as verification token with an expiry later
than `now`, `VerifyEmail` fails with `invalid or expired token` and the store is as
before; when no account holds `t` as reset token with an expiry later than `now`,
`ResetPassword` fails with the same error and the store is as before. Never issued,
already consumed and expired are all this one case. -/
theorem consume_dead_token_fails (users : List User) (now : Int) (t : String) :
    ((∀ u ∈ users, ¬ (u.EmailVerificationToken = some t
        ∧ ∃ exp, u.EmailVerificationExpiresAt = some exp ∧ now < exp)) →
      authService.VerifyEmail ⟨users, none⟩ now t
        = (some "invalid or expired token", ⟨users, none⟩))
    ∧ (∀ hash, (∀ u ∈ users, ¬ (u.PasswordResetToken = some t
        ∧ ∃ exp, u.PasswordResetExpiresAt = some exp ∧ now < exp)) →
      userRepository.ResetPassword ⟨users, none⟩ now t hash
        = (some "invalid or expired token", ⟨users, none⟩)) := by
  constructor
  · intro h
    apply VerifyEmail_of_none
    intro u hu
    rw [Bool.eq_false_iff, Ne, verifyEmailMatches_iff]
    exact h u hu
  · intro hash h
    apply ResetPassword_of_none
    intro u hu
    rw [Bool.eq_false_iff, Ne, resetPasswordMatches_iff]
    exact h u hu

/-- The instance of C8 on a store holding one account whose tokens `tv` and `tr` run
until instant `100`: at instant `100` both are expired though never used, and a token
nobody holds fails in the same way. -/
theorem consume_dead_token_fails_witness :
    authService.VerifyEmail ⟨[Ref.alice], none⟩ 100 "tv"
      = (some "invalid or expired token", ⟨[Ref.alice], none⟩)
    ∧ userRepository.ResetPassword ⟨[Ref.alice], none⟩ 100 "tr" "h:new"
      = (some "invalid or expired token", ⟨[Ref.alice], none⟩)
    ∧ authService.VerifyEmail ⟨[Ref.alice], none⟩ 50 "never"
      = (some "invalid or expired token", ⟨[Ref.alice], none⟩) :=
  ⟨(consume_dead_token_fails [Ref.alice] 100 "tv").1 (by simp [Ref.alice, zeroUser]),
   (consume_dead_token_fails [Ref.alice] 100 "tr").2 "h:new" (by simp [Ref.alice, zeroUser]),
   (consume_dead_token_fails [Ref.alice] 50 "never").1 (by simp [Ref.alice, zeroUser])⟩

/-- Claim C9, at a store whose one account is soft-deleted and still holds its
verification token `tv` and reset token `tr`, both running until instant `100`. The
lookups do not see the account, yet at instant `50` `VerifyEmail` succeeds and marks
it verified, and `ResetPassword` succeeds and replaces its password hash. -/
theorem deleted_account_consumes_tokens :
    Ref.aliceDeleted.DeletedAt = some 10
    ∧ userRepository.GetByID ⟨[Ref.aliceDeleted], none⟩ ⟨1⟩ = (none, some "user not found")
    ∧ userRepository.GetByEmail ⟨[Ref.aliceDeleted], none⟩ "a@x.com"
        = (none, some "user not found")
    ∧ userRepository.VerifyEmail ⟨[Ref.aliceDeleted], none⟩ 50 "tv"
        = (none, ⟨[Ref.aliceDeletedVerified], none⟩)
    ∧ Ref.aliceDeletedVerified.Verified = true
    ∧ userRepository.ResetPassword ⟨[Ref.aliceDeleted], none⟩ 50 "tr" "h:new"
        = (none, ⟨[Ref.aliceDeletedReset], none⟩)
    ∧ Ref.aliceDeletedReset.PasswordHash ≠ Ref.aliceDeleted.PasswordHash := by
  decide

/-- Claim C10. When `VerifyEmail` succeeds, the connection is as before, some account
held the token unexpired, and the accounts of the resulting store are those of the
old one in the same order, where each account that held the token with an expiry
later than `now` has `verified` set and the verification token and its expiry
cleared and is otherwise the same record, and each other account is the same
record. -/
theorem verifyEmail_effect (db : DB) (now : Int) (t : String)
    (hok : (authService.VerifyEmail db now t).1 = none) :
    (authService.VerifyEmail db now t).2.fault = db.fault
    ∧ (∃ u ∈ db.users, u.EmailVerificationToken = some t
        ∧ ∃ exp, u.EmailVerificationExpiresAt = some exp ∧ now < exp)
    ∧ List.Forall₂
        (fun u v =>
          ((u.EmailVerificationToken = some t
              ∧ ∃ exp, u.EmailVerificationExpiresAt = some exp ∧ now < exp) →
            v.Verified = true ∧ v.EmailVerificationToken = none
            ∧ v.EmailVerificationExpiresAt = none
            ∧ v = { u with Verified := true, EmailVerificationToken := none,
                           EmailVerificationExpiresAt := none })
          ∧ (¬ (u.EmailVerificationToken = some t
              ∧ ∃ exp, u.EmailVerificationExpiresAt = some exp ∧ now < exp) → v = u))
        db.users (authService.VerifyEmail db now t).2.users := by
  unfold authService.VerifyEmail at hok ⊢
  obtain ⟨hf, ⟨w, hw, hwm⟩, hdb⟩ := VerifyEmail_ok db now t hok
  rw [hdb]
  refine ⟨hf.symm, ⟨w, hw, (verifyEmailMatches_iff now t w).1 hwm⟩, ?_⟩
  rw [List.forall₂_map_right_iff, List.forall₂_same]
  intro u _
  constructor
  · intro hheld
    rw [if_pos ((verifyEmailMatches_iff now t u).2 hheld)]
    exact ⟨rfl, rfl, rfl, rfl⟩
  · intro hnot
    rw [if_neg (fun hm => hnot ((verifyEmailMatches_iff now t u).1 hm))]

/-- The instance of C10 on a store of two accounts, the first holding `tv` until
instant `100`, the second holding another token: at instant `50` the call succeeds,
and the first account becomes verified and loses the token while the second is
untouched. -/
theorem verifyEmail_effect_witness :
    (authService.VerifyEmail ⟨[Ref.alice, Ref.bob], none⟩ 50 "tv").1 = none
    ∧ (authService.VerifyEmail ⟨[Ref.alice, Ref.bob], none⟩ 50 "tv").2.users
        = [Ref.aliceVerified, Ref.bob] := by
  have h := (verifyEmail_effect ⟨[Ref.alice, Ref.bob], none⟩ 50 "tv" (by decide)).2.2
  refine ⟨by decide, ?_⟩
  generalize (authService.VerifyEmail ⟨[Ref.alice, Ref.bob], none⟩ 50 "tv").2.users = l at h
  cases h with
  | cons h1 h2 =>
    cases h2 with
    | cons h3 h4 =>
      cases h4
      rw [(h1.1 (by simp [Ref.alice, zeroUser])).2.2.2, h3.2 (by simp [Ref.bob, Ref.alice, zeroUser])]
      rfl

/-! ## Password reset -/

namespace Ref

theorem bcrypt_lawful : bcrypt.Lawful := by
  intro password salt hash h
  simp only [bcrypt, Except.ok.injEq] at h
  simp [bcrypt, h]

theorem bcrypt72_lawful : bcrypt72.Lawful := by
  intro password salt hash h
  simp only [bcrypt72] at h
  split at h
  · simp at h
  · simp only [Except.ok.injEq] at h
    simp [bcrypt72, h]

end Ref

theorem ResetPassword_of_some (users : List User) (now : Int) (t hash : String)
    (h : ∃ u ∈ users, resetPasswordMatches now t u = true) :
    userRepository.ResetPassword ⟨users, none⟩ now t hash
      = (none, ⟨users.map (fun u =>
          if resetPasswordMatches now t u then resetPasswordSet hash u else u), none⟩) := by
  obtain ⟨u, hu, hm⟩ := h
  have hne : (users.filter (resetPasswordMatches now t)).length ≠ 0 := by
    intro hz
    rw [List.length_eq_zero, List.filter_eq_nil_iff] at hz
    exact hz u hu hm
  simp [userRepository.ResetPassword, hne]

theorem ResetPassword_users (users : List User) (now : Int) (t hash : String) :
    (userRepository.ResetPassword ⟨users, none⟩ now t hash).2
      = ⟨users.map (fun u =>
          if resetPasswordMatches now t u then resetPasswordSet hash u else u), none⟩ := by
  unfold userRepository.ResetPassword
  simp only []
  split <;> rfl

theorem VerifyEmail_users (users : List User) (now : Int) (t : String) :
    (userRepository.VerifyEmail ⟨users, none⟩ now t).2
      = ⟨users.map (fun u =>
          if verifyEmailMatches now t u then verifyEmailSet u else u), none⟩ := by
  unfold userRepository.VerifyEmail
  simp only []
  split <;> rfl

theorem resetPassword_dead_after (users : List User) (now later : Int) (t hash : String)
    (hlater : now ≤ later) :
    ∀ v ∈ users.map (fun u =>
        if resetPasswordMatches now t u then resetPasswordSet hash u else u),
      resetPasswordMatches later t v = false := by
  intro v hv
  rw [List.mem_map] at hv
  obtain ⟨u, _, hu⟩ := hv
  by_cases hm : resetPasswordMatches now t u = true
  · rw [if_pos hm] at hu
    subst hu
    simp [resetPasswordMatches, resetPasswordSet]
  · rw [if_neg hm] at hu
    subst hu
    rw [Bool.eq_false_iff]
    intro hl
    apply hm
    rw [resetPasswordMatches_iff] at hl ⊢
    obtain ⟨h1, exp, h2, h3⟩ := hl
    exact ⟨h1, exp, h2, by omega⟩

theorem authResetPassword_hash_error (bc : Bcrypt) (db : DB) (now : Int)
    (t p : String) (salt : Nat) (e : String)
    (h : bc.GenerateFromPassword p salt = .error e) :
    authService.ResetPassword bc db now t p salt = (some e, db) := by
  unfold authService.ResetPassword
  rw [h]

/-- Claim C11, as the code has it. The new password `p` is hashed first. When hashing
fails, `ResetPassword` fails with the error of the hashing and the store is as before.
When hashing succeeds (with a bcrypt whose hashes verify): if no account holds `t` as
reset token with an expiry later than `now` (in particular if no account holds `t` at
all), `ResetPassword` fails with `invalid or expired token` and the store, so every
password hash, is as before; otherwise it succeeds, every account that held `t`
unexpired has a password hash that verifies against `p` and both reset fields cleared,
every other account is the same record, and any further `ResetPassword` with `t`,
now or later, fails and changes nothing. -/
theorem resetPassword_outcomes (bc : Bcrypt) (hbc : bc.Lawful) (users : List User)
    (now : Int) (t p : String) (salt : Nat) :
    (∀ e, bc.GenerateFromPassword p salt = .error e →
      authService.ResetPassword bc ⟨users, none⟩ now t p salt = (some e, ⟨users, none⟩))
    ∧ (∀ hash, bc.GenerateFromPassword p salt = .ok hash →
      ((∀ u ∈ users, ¬ (u.PasswordResetToken = some t
          ∧ ∃ exp, u.PasswordResetExpiresAt = some exp ∧ now < exp)) →
        authService.ResetPassword bc ⟨users, none⟩ now t p salt
          = (some "invalid or expired token", ⟨users, none⟩))
      ∧ ((∃ u ∈ users, u.PasswordResetToken = some t
          ∧ ∃ exp, u.PasswordResetExpiresAt = some exp ∧ now < exp) →
        (authService.ResetPassword bc ⟨users, none⟩ now t p salt).1 = none
        ∧ List.Forall₂
            (fun u v =>
              ((u.PasswordResetToken = some t
                  ∧ ∃ exp, u.PasswordResetExpiresAt = some exp ∧ now < exp) →
                bc.CompareHashAndPassword v.PasswordHash p = true
                ∧ v.PasswordResetToken = none ∧ v.PasswordResetExpiresAt = none)
              ∧ (¬ (u.PasswordResetToken = some t
                  ∧ ∃ exp, u.PasswordResetExpiresAt = some exp ∧ now < exp) → v = u))
            users (authService.ResetPassword bc ⟨users, none⟩ now t p salt).2.users
        ∧ ∀ later p2 salt2, now ≤ later →
            (authService.ResetPassword bc
                (authService.ResetPassword bc ⟨users, none⟩ now t p salt).2 later t p2
                salt2).2
              = (authService.ResetPassword bc ⟨users, none⟩ now t p salt).2
            ∧ ((authService.ResetPassword bc
                  (authService.ResetPassword bc ⟨users, none⟩ now t p salt).2 later t p2
                  salt2).1 = some "invalid or expired token"
              ∨ ∃ e, bc.GenerateFromPassword p2 salt2 = .error e
                ∧ (authService.ResetPassword bc
                    (authService.ResetPassword bc ⟨users, none⟩ now t p salt).2 later t p2
                    salt2).1 = some e))) := by
  refine ⟨fun e he => authResetPassword_hash_error bc _ now t p salt e he, ?_⟩
  intro hash hhash
  have hrp : authService.ResetPassword bc ⟨users, none⟩ now t p salt
      = userRepository.ResetPassword ⟨users, none⟩ now t hash := by
    unfold authService.ResetPassword
    rw [hhash]
  rw [hrp]
  constructor
  · intro h
    apply ResetPassword_of_none
    intro u hu
    rw [Bool.eq_false_iff, Ne, resetPasswordMatches_iff]
    exact h u hu
  · rintro ⟨w, hw, hwl⟩
    have hsome := ResetPassword_of_some users now t hash
      ⟨w, hw, (resetPasswordMatches_iff now t w).2 hwl⟩
    rw [hsome]
    refine ⟨rfl, ?_, ?_⟩
    · rw [List.forall₂_map_right_iff, List.forall₂_same]
      intro u _
      constructor
      · intro hheld
        rw [if_pos ((resetPasswordMatches_iff now t u).2 hheld)]
        exact ⟨hbc p salt hash hhash, rfl, rfl⟩
      · intro hnot
        rw [if_neg (fun hm => hnot ((resetPasswordMatches_iff now t u).1 hm))]
    · intro later p2 salt2 hlater
      have hdead := resetPassword_dead_after users now later t hash hlater
      cases h2 : bc.GenerateFromPassword p2 salt2 with
      | error e =>
        rw [authResetPassword_hash_error bc _ later t p2 salt2 e h2]
        exact ⟨rfl, Or.inr ⟨e, rfl, rfl⟩⟩
      | ok hash2 =>
        have h3 : authService.ResetPassword bc
            ⟨users.map (fun u =>
              if resetPasswordMatches now t u then resetPasswordSet hash u else u), none⟩
            later t p2 salt2
            = (some "invalid or expired token",
               ⟨users.map (fun u =>
                if resetPasswordMatches now t u then resetPasswordSet hash u else u),
                none⟩) := by
          unfold authService.ResetPassword
          rw [h2]
          exact ResetPassword_of_none _ later t hash2 hdead
        rw [h3]
        exact ⟨rfl, Or.inl rfl⟩

/-- The instance of the amended C11 on a store holding one account whose reset token
`tr` runs until instant `100`: at instant `50` a bogus token is refused and changes
nothing, `tr` is accepted, and a password of 73 bytes fails with the error of the
hashing. -/
theorem resetPassword_outcomes_witness :
    authService.ResetPassword Ref.bcrypt72 ⟨[Ref.alice], none⟩ 50 "bogus" "new" 0
      = (some "invalid or expired token", ⟨[Ref.alice], none⟩)
    ∧ (authService.ResetPassword Ref.bcrypt72 ⟨[Ref.alice], none⟩ 50 "tr" "new" 0).1 = none
    ∧ authService.ResetPassword Ref.bcrypt72 ⟨[Ref.alice], none⟩ 50 "tr" Ref.longPassword 0
      = (some "bcrypt: password length exceeds 72 bytes", ⟨[Ref.alice], none⟩) :=
  ⟨((resetPassword_outcomes Ref.bcrypt72 Ref.bcrypt72_lawful [Ref.alice] 50 "bogus" "new"
      0).2 "h:new" (by rfl)).1 (by simp [Ref.alice, zeroUser]),
   (((resetPassword_outcomes Ref.bcrypt72 Ref.bcrypt72_lawful [Ref.alice] 50 "tr" "new"
      0).2 "h:new" (by rfl)).2 ⟨Ref.alice, by simp, by simp [Ref.alice, zeroUser]⟩).1,
   (resetPassword_outcomes Ref.bcrypt72 Ref.bcrypt72_lawful [Ref.alice] 50 "tr"
      Ref.longPassword 0).1 "bcrypt: password length exceeds 72 bytes" (by rfl)⟩

/-- Claim C11 fails as stated. With a password of 73 bytes, which bcrypt refuses to
hash, `ResetPassword` neither fails with `invalid or expired token` nor succeeds: for
a bogus token and for the live token `tr` alike it returns the error of the hashing. -/
theorem resetPassword_long_password :
    Ref.longPassword.utf8ByteSize = 73
    ∧ authService.ResetPassword Ref.bcrypt72 ⟨[Ref.alice], none⟩ 50 "bogus"
        Ref.longPassword 0
      = (some "bcrypt: password length exceeds 72 bytes", ⟨[Ref.alice], none⟩)
    ∧ authService.ResetPassword Ref.bcrypt72 ⟨[Ref.alice], none⟩ 50 "tr" Ref.longPassword 0
      = (some "bcrypt: password length exceeds 72 bytes", ⟨[Ref.alice], none⟩)
    ∧ ¬ ((authService.ResetPassword Ref.bcrypt72 ⟨[Ref.alice], none⟩ 50 "tr"
            Ref.longPassword 0).1 = some "invalid or expired token"
        ∨ (authService.ResetPassword Ref.bcrypt72 ⟨[Ref.alice], none⟩ 50 "tr"
            Ref.longPassword 0).1 = none) := by
  decide

/-- Claim C13. When no account that is not deleted has the email,
`RequestPasswordReset` returns the empty text and no error whatever the random read
would give, so no token is made, and the store is as before. -/
theorem requestPasswordReset_unknown_email (db : DB) (now : Int) (email : String)
    (rand : Except String (List Nat))
    (habsent : ∀ u ∈ db.users, u.Email = email → u.DeletedAt ≠ none) :
    authService.RequestPasswordReset db now email rand = (("", none), db) := by
  obtain ⟨x, e, hx⟩ := GetByEmail_absent db email habsent
  unfold authService.RequestPasswordReset
  rw [hx]

/-- The instance of C13 on a store holding one account, for another email. -/
theorem requestPasswordReset_unknown_email_witness :
    authService.RequestPasswordReset ⟨[Ref.alice], none⟩ 7 "nobody@x.com" Ref.rand
      = (("", none), ⟨[Ref.alice], none⟩) :=
  requestPasswordReset_unknown_email ⟨[Ref.alice], none⟩ 7 "nobody@x.com" Ref.rand
    (by decide)

/-! ## Configuration -/

theorem getEnv_eq (env : Environ) (key defaultValue : String) :
    getEnv env key defaultValue = if env key = "" then defaultValue else env key := by
  unfold getEnv
  by_cases h : env key = "" <;> simp [h]

theorem Load_error_iff_Validate (env : Environ) (e : String) :
    Load env = .error e ↔
      (if getEnv env "JWT_SECRET" "your-secret-key-change-in-production"
            = "your-secret-key-change-in-production"
          ∧ getEnv env "ENVIRONMENT" "development" = "production"
        then some "JWT_SECRET must be set in production" else none) = some e := by
  unfold Load
  simp only [Config.Validate]
  split <;> rename_i h <;> simp_all

/-- Claim C12. `Validate` returns an error exactly when the environment is
`production` and the secret is the placeholder, and the error is
`JWT_SECRET must be set in production`. `Load` fails, with that error, exactly when
`ENVIRONMENT` reads `production` and `JWT_SECRET` is unset, empty or the placeholder
itself; for every other environment and every other secret it returns the
configuration. -/
theorem config_validate_iff :
    (∀ c : Config, c.Validate ≠ none ↔
      (c.Environment = "production"
        ∧ c.JWTSecret = "your-secret-key-change-in-production"))
    ∧ (∀ c : Config, c.Validate = none
        ∨ c.Validate = some "JWT_SECRET must be set in production")
    ∧ (∀ env : Environ, env "ENVIRONMENT" = "production" → env "JWT_SECRET" = "" →
        Load env = .error "JWT_SECRET must be set in production")
    ∧ (∀ env : Environ, (∃ e, Load env = .error e) ↔
        (env "ENVIRONMENT" = "production"
          ∧ (env "JWT_SECRET" = ""
            ∨ env "JWT_SECRET" = "your-secret-key-change-in-production")))
    ∧ (∀ env : Environ,
        ¬ (env "ENVIRONMENT" = "production"
          ∧ (env "JWT_SECRET" = ""
            ∨ env "JWT_SECRET" = "your-secret-key-change-in-production")) →
        ∃ cfg, Load env = .ok cfg) := by
  have hiff : ∀ env : Environ, (∃ e, Load env = .error e) ↔
      (env "ENVIRONMENT" = "production"
        ∧ (env "JWT_SECRET" = ""
          ∨ env "JWT_SECRET" = "your-secret-key-change-in-production")) := by
    intro env
    simp only [Load_error_iff_Validate, getEnv_eq]
    by_cases h1 : env "ENVIRONMENT" = "production"
    · by_cases h2 : env "JWT_SECRET" = ""
      · simp [h1, h2]
      · by_cases h3 : env "JWT_SECRET" = "your-secret-key-change-in-production"
        · simp [h1, h3]
        · simp [h1, h2, h3]
    · by_cases h4 : env "ENVIRONMENT" = ""
      · simp [h4]
      · simp [h1, h4]
  refine ⟨?_, ?_, ?_, hiff, ?_⟩
  · intro c
    unfold Config.Validate
    by_cases h : c.JWTSecret = "your-secret-key-change-in-production"
        ∧ c.Environment = "production"
    · simp [h]
    · rw [if_neg h]
      simp only [ne_eq, not_true_eq_false, false_iff]
      exact fun hh => h ⟨hh.2, hh.1⟩
  · intro c
    unfold Config.Validate
    by_cases h : c.JWTSecret = "your-secret-key-change-in-production"
        ∧ c.Environment = "production"
    · exact Or.inr (if_pos h)
    · exact Or.inl (if_neg h)
  · intro env h1 h2
    rw [Load_error_iff_Validate, getEnv_eq, getEnv_eq]
    simp [h1, h2]
  · intro env hno
    cases hl : Load env with
    | ok cfg => exact ⟨cfg, rfl⟩
    | error e => exact absurd ((hiff env).1 ⟨e, hl⟩) hno

/-- The instance of C12 at an environment that names production and sets no secret. -/
theorem config_validate_iff_witness :
    Load Ref.envProduction = .error "JWT_SECRET must be set in production" :=
  config_validate_iff.2.2.1 Ref.envProduction (by decide) (by decide)

/-! ## Registration -/

theorem GetByEmail_fst_none (db : DB) (email : String)
    (h : (userRepository.GetByEmail db email).1 = none) :
    db.fault = none ∧ ∀ u ∈ db.users, u.Email = email → u.DeletedAt ≠ none := by
  unfold userRepository.GetByEmail at h
  cases hf : db.fault with
  | some e => simp [hf] at h
  | none =>
    refine ⟨rfl, ?_⟩
    simp only [hf] at h
    cases hfind : db.users.find? (fun u => decide (u.Email = email) && u.DeletedAt.isNone) with
    | some row => simp [hfind] at h
    | none =>
      rw [List.find?_eq_none] at hfind
      intro u hu he hd
      have := hfind u hu
      simp [he, hd] at this

theorem GetByEmail_fault (db : DB) (email e : String) (hf : db.fault = some e) :
    userRepository.GetByEmail db email = (some zeroUser, some e) := by
  unfold userRepository.GetByEmail
  rw [hf]

theorem Register_of_lookup_some (bc : Bcrypt) (lib : JWTLib) (m : JWTManager)
    (parse : String → Option Int) (db : DB) (now : Int) (req : RegisterRequest)
    (salt : Nat) (id : UUID) (rand : Except String (List Nat)) (x : User)
    (h : (userRepository.GetByEmail db req.Email).1 = some x) :
    authService.Register bc lib m parse db now req salt id rand
      = (.error "email already registered", db) := by
  unfold authService.Register
  rw [h]

theorem usersConstraint_none (users : List User) (row : User)
    (h : usersConstraint users row = none) : ∀ u ∈ users, u.ID ≠ row.ID := by
  unfold usersConstraint at h
  split at h
  · simp at h
  · rename_i hany
    intro u hu he
    apply hany
    rw [List.any_eq_true]
    exact ⟨u, hu, by simp [he]⟩

theorem Create_cases (db : DB) (now : Int) (id : UUID) (user : User) :
    (∃ e, userRepository.Create db now id user = (some e, user, db))
    ∨ (db.fault = none ∧ (∀ u ∈ db.users, u.ID ≠ id)
      ∧ userRepository.Create db now id user
        = (none, { user with ID := id, CreatedAt := now, UpdatedAt := now },
            ⟨db.users ++ [insertedRow now id user], none⟩)) := by
  unfold userRepository.Create
  cases hf : db.fault with
  | some e => exact Or.inl ⟨e, rfl⟩
  | none =>
    cases hc : usersConstraint db.users (insertedRow now id user) with
    | some e => exact Or.inl ⟨e, rfl⟩
    | none =>
      right
      refine ⟨rfl, ?_, ?_⟩
      · exact usersConstraint_none db.users _ hc
      · cases db
        simp_all

theorem map_ite_id_of_none (users : List User) (id : UUID) (f : User → User)
    (h : ∀ u ∈ users, u.ID ≠ id) :
    users.map (fun u => if u.ID = id then f u else u) = users := by
  induction users with
  | nil => rfl
  | cons a as ih =>
    have ha := h a (List.mem_cons_self a as)
    have has := ih (fun u hu => h u (List.mem_cons_of_mem a hu))
    simp [ha, has]

theorem verification_step (users : List User) (ins : User) (now : Int)
    (rand : Except String (List Nat)) (hid : ∀ u ∈ users, u.ID ≠ ins.ID) :
    ∃ row,
      (match generateToken rand with
        | (verificationToken, none) =>
          (userRepository.SetEmailVerificationToken ⟨users ++ [ins], none⟩ ins.ID
            verificationToken (some (now + 24 * Hour))).2
        | (_, some _) => (⟨users ++ [ins], none⟩ : DB))
        = ⟨users ++ [row], none⟩
      ∧ row.ID = ins.ID ∧ row.Email = ins.Email ∧ row.DeletedAt = ins.DeletedAt
      ∧ row.Verified = ins.Verified ∧ row.Active = ins.Active
      ∧ row.PasswordHash = ins.PasswordHash := by
  rcases hgt : generateToken rand with ⟨tok, _ | e⟩
  · refine ⟨{ ins with EmailVerificationToken := some tok,
                       EmailVerificationExpiresAt := some (now + 24 * Hour) },
      ?_, rfl, rfl, rfl, rfl, rfl, rfl⟩
    simp [userRepository.SetEmailVerificationToken, map_ite_id_of_none users ins.ID _ hid]
  · exact ⟨ins, rfl, rfl, rfl, rfl, rfl, rfl, rfl⟩

theorem Register_cases (bc : Bcrypt) (lib : JWTLib) (m : JWTManager)
    (parse : String → Option Int) (db : DB) (now : Int) (req : RegisterRequest)
    (salt : Nat) (id : UUID) (rand : Except String (List Nat)) :
    ((∃ e, (authService.Register bc lib m parse db now req salt id rand).1 = .error e)
      ∧ (authService.Register bc lib m parse db now req salt id rand).2 = db)
    ∨ (db.fault = none
      ∧ (∀ u ∈ db.users, u.Email = req.Email → u.DeletedAt ≠ none)
      ∧ ∃ row, (authService.Register bc lib m parse db now req salt id rand).2
          = ⟨db.users ++ [row], none⟩
        ∧ row.ID = id ∧ row.Email = req.Email ∧ row.DeletedAt = none
        ∧ row.Verified = false ∧ row.Active = true
        ∧ ∀ resp, (authService.Register bc lib m parse db now req salt id rand).1 = .ok resp →
            resp.User.Verified = false ∧ resp.User.Active = true ∧ resp.User.ID = id
            ∧ resp.User.Email = req.Email) := by
  unfold authService.Register
  cases hg : (userRepository.GetByEmail db req.Email).1 with
  | some x => exact Or.inl ⟨⟨_, rfl⟩, rfl⟩
  | none =>
    obtain ⟨_, habs⟩ := GetByEmail_fst_none db req.Email hg
    cases hh : bc.GenerateFromPassword req.Password salt with
    | error e => exact Or.inl ⟨⟨_, rfl⟩, rfl⟩
    | ok hashedPassword =>
      cases hp : parse req.DateOfBirth with
      | none => exact Or.inl ⟨⟨_, rfl⟩, rfl⟩
      | some dob =>
        simp only []
        rcases Create_cases db now id
          { zeroUser with
            Email := req.Email, PasswordHash := hashedPassword, FullName := req.FullName,
            DateOfBirth := dob, Gender := req.Gender, Verified := false, Active := true }
          with ⟨e, hc⟩ | ⟨hf, hid, hc⟩
        · rw [hc]
          exact Or.inl ⟨⟨_, rfl⟩, rfl⟩
        · rw [hc]
          simp only []
          obtain ⟨row, hrow, h1, h2, h3, h4, h5, _⟩ := verification_step db.users
            (insertedRow now id
              { zeroUser with
                Email := req.Email, PasswordHash := hashedPassword,
                FullName := req.FullName, DateOfBirth := dob, Gender := req.Gender,
                Verified := false, Active := true })
            now rand hid
          right
          refine ⟨hf, habs, row, ?_, h1, h2, h3, h4, h5, ?_⟩
          · rw [← hrow]
            split <;> try split
            all_goals rfl
          · intro resp hresp
            split at hresp
            · simp at hresp
            · split at hresp
              · simp at hresp
              · simp only [Except.ok.injEq] at hresp
                subst hresp
                exact ⟨rfl, rfl, rfl, rfl⟩

theorem GetByEmail_absent_working (users : List User) (email : String)
    (h : ∀ u ∈ users, u.Email = email → u.DeletedAt ≠ none) :
    userRepository.GetByEmail ⟨users, none⟩ email = (none, some "user not found") := by
  unfold userRepository.GetByEmail
  have hnone : users.find? (fun u => decide (u.Email = email) && u.DeletedAt.isNone)
      = none := by
    rw [List.find?_eq_none]
    intro u hu
    have := h u hu
    cases hd : u.DeletedAt <;> simp_all
  simp only [hnone]

theorem Register_of_fault (bc : Bcrypt) (lib : JWTLib) (m : JWTManager)
    (parse : String → Option Int) (db : DB) (now : Int) (req : RegisterRequest)
    (salt : Nat) (id : UUID) (rand : Except String (List Nat)) (e : String)
    (hf : db.fault = some e) :
    authService.Register bc lib m parse db now req salt id rand
      = (.error "email already registered", db) :=
  Register_of_lookup_some bc lib m parse db now req salt id rand zeroUser
    (by rw [GetByEmail_fault db req.Email e hf])

/-- Claim C14, as the code has it. On a working store where no account that is not
deleted has the request's email, a request whose date of birth the parser refuses
makes `Register` fail and leave the store as it was, with no account and no
verification token added. The password is hashed before the date is parsed: the error
is `invalid date format` when the hashing succeeded, and the error of the hashing
when it failed. -/
theorem register_invalid_date (bc : Bcrypt) (lib : JWTLib) (m : JWTManager)
    (parse : String → Option Int) (users : List User) (now : Int) (req : RegisterRequest)
    (salt : Nat) (id : UUID) (rand : Except String (List Nat))
    (habsent : ∀ u ∈ users, u.Email = req.Email → u.DeletedAt ≠ none)
    (hdate : parse req.DateOfBirth = none) :
    (∃ e, (authService.Register bc lib m parse ⟨users, none⟩ now req salt id rand).1
        = .error e)
    ∧ (authService.Register bc lib m parse ⟨users, none⟩ now req salt id rand).2
        = ⟨users, none⟩
    ∧ (∀ hash, bc.GenerateFromPassword req.Password salt = .ok hash →
        authService.Register bc lib m parse ⟨users, none⟩ now req salt id rand
          = (.error "invalid date format", ⟨users, none⟩))
    ∧ (∀ e, bc.GenerateFromPassword req.Password salt = .error e →
        authService.Register bc lib m parse ⟨users, none⟩ now req salt id rand
          = (.error e, ⟨users, none⟩)) := by
  have hg := GetByEmail_absent_working users req.Email habsent
  unfold authService.Register
  rw [hg]
  cases hh : bc.GenerateFromPassword req.Password salt with
  | error e =>
    refine ⟨⟨e, rfl⟩, rfl, fun hash hc => by simp at hc, fun e2 hc => ?_⟩
    simp only [Except.error.injEq] at hc
    subst hc
    rfl
  | ok hashedPassword =>
    simp [hdate]

/-- The instance of the amended C14 on a store holding one other account, for a
request whose date of birth is written `15/06/1995`. -/
theorem register_invalid_date_witness :
    authService.Register Ref.bcrypt72 Ref.lib Ref.manager Ref.parseDate ⟨[Ref.alice], none⟩ 7
        Ref.requestBadDate 0 ⟨3⟩ Ref.rand
      = (.error "invalid date format", ⟨[Ref.alice], none⟩) :=
  (register_invalid_date Ref.bcrypt72 Ref.lib Ref.manager Ref.parseDate [Ref.alice] 7
    Ref.requestBadDate 0 ⟨3⟩ Ref.rand (by decide) (by decide)).2.2.1 "h:Password123!" (by rfl)

/-- Claim C14 fails as stated. The email is not registered and the date of birth is
malformed, but the password has 73 bytes: `Register` fails with the error of the
hashing, not with `invalid date format`. -/
theorem register_bad_date_long_password :
    (∀ u ∈ [Ref.alice], u.Email = Ref.requestBadDateLong.Email → u.DeletedAt ≠ none)
    ∧ Ref.parseDate Ref.requestBadDateLong.DateOfBirth = none
    ∧ Ref.requestBadDateLong.Password.utf8ByteSize = 73
    ∧ authService.Register Ref.bcrypt72 Ref.lib Ref.manager Ref.parseDate
        ⟨[Ref.alice], none⟩ 7 Ref.requestBadDateLong 0 ⟨3⟩ Ref.rand
      = (.error "bcrypt: password length exceeds 72 bytes", ⟨[Ref.alice], none⟩)
    ∧ (authService.Register Ref.bcrypt72 Ref.lib Ref.manager Ref.parseDate
        ⟨[Ref.alice], none⟩ 7 Ref.requestBadDateLong 0 ⟨3⟩ Ref.rand).1
      ≠ .error "invalid date format" := by
  have h : authService.Register Ref.bcrypt72 Ref.lib Ref.manager Ref.parseDate
      ⟨[Ref.alice], none⟩ 7 Ref.requestBadDateLong 0 ⟨3⟩ Ref.rand
      = (.error "bcrypt: password length exceeds 72 bytes", ⟨[Ref.alice], none⟩) := by rfl
  refine ⟨by decide, by decide, by decide, h, ?_⟩
  rw [h]
  simp

/-- Claim C15. After a `Register` that returned a response, every `Register` on the
resulting store with the same email, whatever its other fields and whatever it
draws, fails with `email already registered` and returns the store as it found it:
no account is added and the first account keeps its password hash, verified flag and
verification token. -/
theorem register_same_email_twice (bc : Bcrypt) (lib : JWTLib) (m : JWTManager)
    (parse : String → Option Int) (db : DB) (now : Int) (req : RegisterRequest)
    (salt : Nat) (id : UUID) (rand : Except String (List Nat))
    (hfirst : ∃ resp, (authService.Register bc lib m parse db now req salt id rand).1
      = .ok resp) :
    ∀ (now2 : Int) (req2 : RegisterRequest) (salt2 : Nat) (id2 : UUID)
      (rand2 : Except String (List Nat)), req2.Email = req.Email →
      authService.Register bc lib m parse
          (authService.Register bc lib m parse db now req salt id rand).2
          now2 req2 salt2 id2 rand2
        = (.error "email already registered",
            (authService.Register bc lib m parse db now req salt id rand).2) := by
  intro now2 req2 salt2 id2 rand2 hemail
  obtain ⟨resp, hresp⟩ := hfirst
  rcases Register_cases bc lib m parse db now req salt id rand with
    ⟨⟨e, he⟩, _⟩ | ⟨_, _, row, hrow, _, hre, hrd, _⟩
  · rw [hresp] at he
    simp at he
  · rw [hrow]
    obtain ⟨user, huser⟩ := GetByEmail_present ⟨db.users ++ [row], none⟩ req2.Email rfl
      ⟨row, by simp, by rw [hre, hemail], hrd⟩
    exact Register_of_lookup_some bc lib m parse _ now2 req2 salt2 id2 rand2 user
      (by rw [huser])

/-- The instance of C15: on a store holding one other account the reference request
registers, and the same email with another password is then refused. -/
theorem register_same_email_twice_witness :
    (authService.Register Ref.bcrypt Ref.lib Ref.manager Ref.parseDate
        (authService.Register Ref.bcrypt Ref.lib Ref.manager Ref.parseDate
          ⟨[Ref.alice], none⟩ 7 Ref.request 0 ⟨3⟩ Ref.rand).2
        9 { Ref.request with Password := "Another456!" } 1 ⟨4⟩ Ref.rand).1
      = .error "email already registered" := by
  rw [register_same_email_twice Ref.bcrypt Ref.lib Ref.manager Ref.parseDate
    ⟨[Ref.alice], none⟩ 7 Ref.request 0 ⟨3⟩ Ref.rand ⟨_, rfl⟩ 9
    { Ref.request with Password := "Another456!" } 1 ⟨4⟩ Ref.rand rfl]

/-- Claim C16, at a store whose connection fails every statement and whose table is
empty. The lookup returns the allocated record together with the driver's error;
`Register` drops the error, finds the record not nil, and reports
`email already registered` although no account has the email. -/
theorem register_store_error_reported_as_duplicate :
    Ref.broken.users = []
    ∧ userRepository.GetByEmail Ref.broken Ref.request.Email
        = (some zeroUser, some "driver: bad connection")
    ∧ authService.Register Ref.bcrypt Ref.lib Ref.manager Ref.parseDate Ref.broken 7
        Ref.request 0 ⟨3⟩ Ref.rand
      = (.error "email already registered", Ref.broken) :=
  ⟨rfl, rfl, Register_of_lookup_some _ _ _ _ _ _ _ _ _ _ zeroUser rfl⟩

/-! ## Overwriting a single-use token -/

/-- Claim C17. On a working store and for tokens `t1 ≠ t2`: after
`SetPasswordResetToken` with `t1` and then with `t2` for the email `e`, every account
with that email that is not deleted holds `t2` with the expiry given with it, and
`ResetPassword` with `t1` leaves each such account the same record, password hash
included. After `SetEmailVerificationToken` with `t1` and then with `t2` for the id,
every account of that id holds `t2` with its expiry, and `VerifyEmail` with `t1`
leaves each such account the same record, so not verified by it. -/
theorem set_token_overwrites (users : List User) (now : Int) (e : String) (id : UUID)
    (t1 t2 : String) (x1 x2 : Option Int) (hash : String) (hne : t1 ≠ t2) :
    List.Forall₂
      (fun u v => (u.Email = e ∧ u.DeletedAt = none) →
        v.PasswordResetToken = some t2 ∧ v.PasswordResetExpiresAt = x2)
      users
      (userRepository.SetPasswordResetToken
        (userRepository.SetPasswordResetToken ⟨users, none⟩ e t1 x1).2 e t2 x2).2.users
    ∧ List.Forall₂
      (fun v w => (v.Email = e ∧ v.DeletedAt = none) → w = v)
      (userRepository.SetPasswordResetToken
        (userRepository.SetPasswordResetToken ⟨users, none⟩ e t1 x1).2 e t2 x2).2.users
      (userRepository.ResetPassword
        (userRepository.SetPasswordResetToken
          (userRepository.SetPasswordResetToken ⟨users, none⟩ e t1 x1).2 e t2 x2).2
        now t1 hash).2.users
    ∧ List.Forall₂
      (fun u v => u.ID = id →
        v.EmailVerificationToken = some t2 ∧ v.EmailVerificationExpiresAt = x2)
      users
      (userRepository.SetEmailVerificationToken
        (userRepository.SetEmailVerificationToken ⟨users, none⟩ id t1 x1).2 id t2 x2).2.users
    ∧ List.Forall₂
      (fun v w => v.ID = id → w = v)
      (userRepository.SetEmailVerificationToken
        (userRepository.SetEmailVerificationToken ⟨users, none⟩ id t1 x1).2 id t2 x2).2.users
      (userRepository.VerifyEmail
        (userRepository.SetEmailVerificationToken
          (userRepository.SetEmailVerificationToken ⟨users, none⟩ id t1 x1).2 id t2 x2).2
        now t1).2.users := by
  have hr : (userRepository.SetPasswordResetToken
        (userRepository.SetPasswordResetToken ⟨users, none⟩ e t1 x1).2 e t2 x2).2
      = ⟨(users.map (fun u =>
            if decide (u.Email = e) && u.DeletedAt.isNone then
              { u with PasswordResetToken := some t1, PasswordResetExpiresAt := x1 }
            else u)).map (fun u =>
            if decide (u.Email = e) && u.DeletedAt.isNone then
              { u with PasswordResetToken := some t2, PasswordResetExpiresAt := x2 }
            else u), none⟩ := rfl
  have hv : (userRepository.SetEmailVerificationToken
        (userRepository.SetEmailVerificationToken ⟨users, none⟩ id t1 x1).2 id t2 x2).2
      = ⟨(users.map (fun u =>
            if u.ID = id then
              { u with EmailVerificationToken := some t1,
                       EmailVerificationExpiresAt := x1 }
            else u)).map (fun u =>
            if u.ID = id then
              { u with EmailVerificationToken := some t2,
                       EmailVerificationExpiresAt := x2 }
            else u), none⟩ := rfl
  have hne2 : ¬ (t2 = t1) := fun h => hne h.symm
  rw [hr, hv, ResetPassword_users, VerifyEmail_users]
  refine ⟨?_, ?_, ?_, ?_⟩
  · rw [List.forall₂_map_right_iff, List.forall₂_map_right_iff, List.forall₂_same]
    rintro u _ ⟨he, hd⟩
    simp [he, hd]
  · rw [List.forall₂_map_right_iff, List.forall₂_same]
    intro v hmem hP
    rw [List.map_map, List.mem_map] at hmem
    obtain ⟨u, _, huv⟩ := hmem
    simp only [Function.comp_apply] at huv
    by_cases hc : u.Email = e ∧ u.DeletedAt = none
    · have hvt : v.PasswordResetToken = some t2 := by
        rw [← huv]
        simp [hc.1, hc.2]
      have hm : resetPasswordMatches now t1 v = false := by
        rw [Bool.eq_false_iff, Ne, resetPasswordMatches_iff, hvt]
        rintro ⟨h1, _⟩
        exact hne2 (Option.some.inj h1)
      simp [hm]
    · exfalso
      have hvu : v = u := by
        rw [← huv]
        by_cases h1 : u.Email = e
        · have h2 : ¬ u.DeletedAt = none := fun h => hc ⟨h1, h⟩
          have h3 : u.DeletedAt.isNone = false := by
            cases hd : u.DeletedAt with
            | none => exact absurd hd h2
            | some _ => rfl
          simp [h1, h3]
        · simp [h1]
      rw [hvu] at hP
      exact hc hP
  · rw [List.forall₂_map_right_iff, List.forall₂_map_right_iff, List.forall₂_same]
    intro u _ hid
    simp [hid]
  · rw [List.forall₂_map_right_iff, List.forall₂_same]
    intro v hmem hP
    rw [List.map_map, List.mem_map] at hmem
    obtain ⟨u, _, huv⟩ := hmem
    simp only [Function.comp_apply] at huv
    by_cases hc : u.ID = id
    · have hvt : v.EmailVerificationToken = some t2 := by
        rw [← huv]
        simp [hc]
      have hm : verifyEmailMatches now t1 v = false := by
        rw [Bool.eq_false_iff, Ne, verifyEmailMatches_iff, hvt]
        rintro ⟨h1, _⟩
        exact hne2 (Option.some.inj h1)
      simp [hm]
    · exfalso
      have hvu : v = u := by
        rw [← huv]
        simp [hc]
      rw [hvu] at hP
      exact hc hP

/-- The instance of C17 on a store holding one account: after `first` and then
`second` were set as its reset token, the account holds `second` until `300`, and
`ResetPassword` with `first` leaves it the same record. -/
theorem set_token_overwrites_witness :
    List.Forall₂
      (fun u v => (u.Email = "a@x.com" ∧ u.DeletedAt = none) →
        v.PasswordResetToken = some "second" ∧ v.PasswordResetExpiresAt = some 300)
      [Ref.alice]
      (userRepository.SetPasswordResetToken
        (userRepository.SetPasswordResetToken ⟨[Ref.alice], none⟩ "a@x.com" "first"
          (some 200)).2 "a@x.com" "second" (some 300)).2.users
    ∧ List.Forall₂
      (fun v w => (v.Email = "a@x.com" ∧ v.DeletedAt = none) → w = v)
      (userRepository.SetPasswordResetToken
        (userRepository.SetPasswordResetToken ⟨[Ref.alice], none⟩ "a@x.com" "first"
          (some 200)).2 "a@x.com" "second" (some 300)).2.users
      (userRepository.ResetPassword
        (userRepository.SetPasswordResetToken
          (userRepository.SetPasswordResetToken ⟨[Ref.alice], none⟩ "a@x.com" "first"
            (some 200)).2 "a@x.com" "second" (some 300)).2
        50 "first" "h:new").2.users :=
  have h := set_token_overwrites [Ref.alice] 50 "a@x.com" ⟨1⟩ "first" "second" (some 200)
    (some 300) "h:new" (by decide)
  ⟨h.1, h.2.1⟩

/-! ## Verification status -/

theorem run_users (op : RepoOp) (db : DB) :
    ∃ (f : User → User) (extra : List User),
      (op.run db).2.users = db.users.map f ++ extra
      ∧ ∀ u, (f u).Verified = u.Verified
          ∨ ((f u).Verified = true ∧ db.fault = none
              ∧ ∃ now t, op = .VerifyEmail now t ∧ verifyEmailMatches now t u = true) := by
  cases hf : db.fault with
  | some e =>
    refine ⟨fun u => u, [], ?_, fun u => Or.inl rfl⟩
    cases op <;>
      simp [RepoOp.run, userRepository.Create, userRepository.Update, userRepository.Delete,
        userRepository.UpdateLastLogin, userRepository.SetEmailVerificationToken,
        userRepository.VerifyEmail, userRepository.SetPasswordResetToken,
        userRepository.ResetPassword, hf]
  | none =>
    cases op with
    | Create now id user =>
      cases hc : usersConstraint db.users (insertedRow now id user) with
      | some e =>
        exact ⟨fun u => u, [], by simp [RepoOp.run, userRepository.Create, hf, hc],
          fun u => Or.inl rfl⟩
      | none =>
        exact ⟨fun u => u, [insertedRow now id user],
          by simp [RepoOp.run, userRepository.Create, hf, hc], fun u => Or.inl rfl⟩
    | Update now user =>
      refine ⟨fun u => if decide (u.ID = user.ID) && u.DeletedAt.isNone then
          { u with FullName := user.FullName, Bio := user.Bio, UpdatedAt := now } else u,
        [], ?_, ?_⟩
      · simp only [RepoOp.run, userRepository.Update, hf, List.append_nil]
        split <;> rfl
      · intro u
        left
        dsimp only
        split <;> rfl
    | Delete now id =>
      refine ⟨fun u => if u.ID = id then { u with DeletedAt := some now } else u, [],
        by simp [RepoOp.run, userRepository.Delete, hf], ?_⟩
      intro u
      left
      dsimp only
      split <;> rfl
    | UpdateLastLogin now id =>
      refine ⟨fun u => if u.ID = id then { u with LastLoginAt := some now } else u, [],
        by simp [RepoOp.run, userRepository.UpdateLastLogin, hf], ?_⟩
      intro u
      left
      dsimp only
      split <;> rfl
    | SetEmailVerificationToken id token expiresAt =>
      refine ⟨fun u => if u.ID = id then
          { u with EmailVerificationToken := some token,
                   EmailVerificationExpiresAt := expiresAt } else u, [],
        by simp [RepoOp.run, userRepository.SetEmailVerificationToken, hf], ?_⟩
      intro u
      left
      dsimp only
      split <;> rfl
    | VerifyEmail now token =>
      refine ⟨fun u => if verifyEmailMatches now token u then verifyEmailSet u else u, [],
        ?_, ?_⟩
      · simp only [RepoOp.run, userRepository.VerifyEmail, hf, List.append_nil]
        split <;> rfl
      · intro u
        by_cases hm : verifyEmailMatches now token u = true
        · right
          exact ⟨by simp [hm, verifyEmailSet], rfl, now, token, rfl, hm⟩
        · left
          simp [hm]
    | SetPasswordResetToken email token expiresAt =>
      refine ⟨fun u => if decide (u.Email = email) && u.DeletedAt.isNone then
          { u with PasswordResetToken := some token,
                   PasswordResetExpiresAt := expiresAt } else u, [],
        by simp [RepoOp.run, userRepository.SetPasswordResetToken, hf], ?_⟩
      intro u
      left
      dsimp only
      split <;> rfl
    | ResetPassword now token passwordHash =>
      refine ⟨fun u => if resetPasswordMatches now token u then
          resetPasswordSet passwordHash u else u, [], ?_, ?_⟩
      · simp only [RepoOp.run, userRepository.ResetPassword, hf, List.append_nil]
        split <;> rfl
      · intro u
        left
        dsimp only
        split <;> rfl

theorem VerifyEmail_of_match (db : DB) (now : Int) (t : String) (u : User)
    (hf : db.fault = none) (hu : u ∈ db.users) (hm : verifyEmailMatches now t u = true) :
    (userRepository.VerifyEmail db now t).1 = none := by
  have hne : (db.users.filter (verifyEmailMatches now t)).length ≠ 0 := by
    intro hz
    rw [List.length_eq_zero, List.filter_eq_nil_iff] at hz
    exact hz u hu hm
  simp [userRepository.VerifyEmail, hf, hne]

/-- Claim C18. Every writing operation of the repository keeps the accounts of the
store in place, and for each of them: a verified account stays verified, and an
account that was not verified is verified afterwards only if the operation was a
`VerifyEmail` that returned no error. `Register` either leaves the accounts as they
are or adds exactly one, which is not verified and is active, and the account in its
response is not verified and is active. -/
theorem verified_one_way (op : RepoOp) (db : DB) :
    (∀ (i : Nat) (u : User), db.users[i]? = some u →
      ∃ v : User, (op.run db).2.users[i]? = some v
        ∧ (u.Verified = true → v.Verified = true)
        ∧ (u.Verified = false → v.Verified = true →
            ∃ now t, op = .VerifyEmail now t ∧ (op.run db).1 = none))
    ∧ (∀ (bc : Bcrypt) (lib : JWTLib) (m : JWTManager) (parse : String → Option Int)
        (now : Int) (req : RegisterRequest) (salt : Nat) (id : UUID)
        (rand : Except String (List Nat)),
        ((authService.Register bc lib m parse db now req salt id rand).2.users = db.users
          ∨ ∃ row, (authService.Register bc lib m parse db now req salt id rand).2.users
              = db.users ++ [row]
            ∧ row.Verified = false ∧ row.Active = true)
        ∧ ∀ resp, (authService.Register bc lib m parse db now req salt id rand).1 = .ok resp →
            resp.User.Verified = false ∧ resp.User.Active = true
            ∧ ∃ row, (authService.Register bc lib m parse db now req salt id rand).2.users
                = db.users ++ [row]
              ∧ row.ID = resp.User.ID ∧ row.Verified = false ∧ row.Active = true) := by
  constructor
  · intro i u hu
    obtain ⟨f, extra, husers, hf⟩ := run_users op db
    have hi : i < (db.users.map f).length := by
      rw [List.length_map]
      exact (List.getElem?_eq_some.1 hu).1
    have hv : (op.run db).2.users[i]? = some (f u) := by
      rw [husers, List.getElem?_append_left hi, List.getElem?_map, hu]
      rfl
    refine ⟨f u, hv, ?_, ?_⟩
    · intro ht
      rcases hf u with h | ⟨h, _⟩
      · rw [h, ht]
      · exact h
    · intro hfalse htrue
      rcases hf u with h | ⟨_, hfault, now, t, hop, hm⟩
      · rw [h, hfalse] at htrue
        exact absurd htrue (by decide)
      · refine ⟨now, t, hop, ?_⟩
        subst hop
        exact VerifyEmail_of_match db now t u hfault (List.getElem?_mem hu) hm
  · intro bc lib m parse now req salt id rand
    rcases Register_cases bc lib m parse db now req salt id rand with
      ⟨⟨e, he⟩, hdb⟩ | ⟨_, _, row, hrow, hid, _, _, hver, hact, hresp⟩
    · refine ⟨Or.inl (by rw [hdb]), ?_⟩
      intro resp hr
      rw [hr] at he
      simp at he
    · refine ⟨Or.inr ⟨row, by rw [hrow], hver, hact⟩, ?_⟩
      intro resp hr
      obtain ⟨h1, h2, h3, _⟩ := hresp resp hr
      exact ⟨h1, h2, row, by rw [hrow], by rw [hid, h3], hver, hact⟩

/-- The instance of C18: soft-deleting a verified account leaves it verified, and the
account the reference request registers is not verified and is active. -/
theorem verified_one_way_witness :
    (∃ v, (RepoOp.run (.Delete 50 ⟨1⟩) ⟨[Ref.aliceVerified], none⟩).2.users[0]? = some v
      ∧ v.Verified = true)
    ∧ (∃ row, (authService.Register Ref.bcrypt Ref.lib Ref.manager Ref.parseDate
          ⟨[Ref.aliceVerified], none⟩ 7 Ref.request 0 ⟨3⟩ Ref.rand).2.users
        = [Ref.aliceVerified] ++ [row] ∧ row.Verified = false ∧ row.Active = true) := by
  have h := verified_one_way (.Delete 50 ⟨1⟩) ⟨[Ref.aliceVerified], none⟩
  constructor
  · obtain ⟨v, hv, h1, _⟩ := h.1 0 Ref.aliceVerified rfl
    exact ⟨v, hv, h1 rfl⟩
  · obtain ⟨_, hr⟩ := h.2 Ref.bcrypt Ref.lib Ref.manager Ref.parseDate 7 Ref.request 0
      ⟨3⟩ Ref.rand
    cases hreg : (authService.Register Ref.bcrypt Ref.lib Ref.manager Ref.parseDate
        ⟨[Ref.aliceVerified], none⟩ 7 Ref.request 0 ⟨3⟩ Ref.rand).1 with
    | error e =>
      exfalso
      have : (authService.Register Ref.bcrypt Ref.lib Ref.manager Ref.parseDate
        ⟨[Ref.aliceVerified], none⟩ 7 Ref.request 0 ⟨3⟩ Ref.rand).1.toOption.isSome
          = true := by decide
      rw [hreg] at this
      simp [Except.toOption] at this
    | ok resp =>
      obtain ⟨_, _, row, h1, _, h2, h3⟩ := hr resp hreg
      exact ⟨row, h1, h2, h3⟩

end Findme
